import Mathlib

/-!
Verification of the transaction aggregation/reporting module of the xpns
personal-finance application, shallowly embedded in Lean 4.

Conventions of the embedding:
* JS numbers carrying money amounts are modelled as exact rationals (`ℚ`);
  the aggregation code only adds, subtracts, divides and compares them.
* A JS `Date` is modelled at calendar-day granularity by `SimpleDate`
  (`new Date(string)` that fails to parse, i.e. an `Invalid Date`, is
  modelled as `none : Option SimpleDate`).
* A JS object used as a string-keyed record (`Record<string, T>`) is
  modelled as an association list in insertion order, which is the
  enumeration order `Object.entries` gives for non-integer-like keys.
* `Array.prototype.sort`, which is stable, is modelled as a stable
  insertion sort with the same comparator.
* Transaction rows follow `types/supabase.ts`: nullable columns are
  `Option`s, and `is_credit : Bool` models the truthiness tests the
  aggregation code performs on that column.
-/

inductive TxType where
  | income
  | expense
  deriving DecidableEq, Repr

structure SimpleDate where
  year : Nat
  month : Nat
  day : Nat
  deriving DecidableEq, Repr

structure Transaction where
  id : String
  user_id : String
  amount : ℚ
  description : String
  date : Option SimpleDate
  type : TxType
  category : Option String
  notes : Option String
  is_credit : Bool
  installments : Option Nat
  original_amount : Option ℚ
  remaining_installments : Option Nat
  deriving DecidableEq, Repr

/-- Decimal digit character, as produced by JS number-to-string coercion. -/
def dchar (n : Nat) : Char :=
  Char.ofNat (48 + n)

/-- Fuel-driven digit extraction; `fuel ≥ n` always suffices because the
argument strictly decreases under division by 10. Structural recursion is
used (rather than well-founded recursion) so that concrete evaluations
reduce inside the kernel. -/
def reprDigitsAux : Nat → Nat → List Char
  | 0, n => [dchar n]
  | fuel + 1, n =>
    if n < 10 then [dchar n]
    else dchar (n % 10) :: reprDigitsAux fuel (n / 10)

/-- Decimal digits of `n`, least significant first, as characters. -/
def reprDigits (n : Nat) : List Char :=
  reprDigitsAux n n

theorem reprDigitsAux_congr :
    ∀ (f1 : Nat) (f2 n : Nat), n ≤ f1 → n ≤ f2 →
      reprDigitsAux f1 n = reprDigitsAux f2 n := by
  intro f1
  induction f1 with
  | zero =>
    intro f2 n h1 _
    interval_cases n
    cases f2 <;> simp [reprDigitsAux]
  | succ f ih =>
    intro f2 n h1 h2
    by_cases hn : n < 10
    · cases f2 with
      | zero =>
        interval_cases n
        all_goals rfl
      | succ f2 => simp [reprDigitsAux, hn]
    · cases f2 with
      | zero => omega
      | succ f2 =>
        simp only [reprDigitsAux, hn, if_false, if_neg]
        have hd : n / 10 ≤ f := by
          have := Nat.div_lt_self (by omega : 0 < n) (by omega : 1 < 10)
          omega
        have hd2 : n / 10 ≤ f2 := by
          have := Nat.div_lt_self (by omega : 0 < n) (by omega : 1 < 10)
          omega
        rw [ih f2 (n / 10) hd hd2]

/-- The recursive unfolding of `reprDigits`, independent of fuel. -/
theorem reprDigits_unfold (n : Nat) :
    reprDigits n =
      if n < 10 then [dchar n]
      else dchar (n % 10) :: reprDigits (n / 10) := by
  by_cases hn : n < 10
  · unfold reprDigits
    cases hc : n with
    | zero => simp [reprDigitsAux, hn]
    | succ m =>
      subst hc
      simp [reprDigitsAux, hn]
  · have h1 : 1 ≤ n := by omega
    obtain ⟨m, rfl⟩ : ∃ m, n = m + 1 := ⟨n - 1, by omega⟩
    unfold reprDigits
    simp only [reprDigitsAux, hn, if_neg, if_false]
    have hd : (m + 1) / 10 ≤ m := by
      have := Nat.div_lt_self (by omega : 0 < m + 1) (by omega : 1 < 10)
      omega
    rw [reprDigitsAux_congr m ((m + 1) / 10) ((m + 1) / 10) hd le_rfl]

/-- Decimal representation of a natural number, modelling the JS template
literal coercion of a non-negative number. -/
def natRepr (n : Nat) : String :=
  ⟨(reprDigits n).reverse⟩

/-- `String(n).padStart(2, "0")` for a natural number. -/
def pad2 (n : Nat) : String :=
  (if n < 10 then "0" else "") ++ natRepr n

/-- The month key built in `app/reports/page.tsx` `calculateMonthlyData` and
in the dashboard server page `calculateFinancialStats`:
`` `${date.getFullYear()}-${date.getMonth() + 1}` `` — month not padded.
An `Invalid Date` yields `NaN` from both getters, hence the key "NaN-NaN". -/
def monthKeyRaw : Option SimpleDate → String
  | none => "NaN-NaN"
  | some d => natRepr d.year ++ "-" ++ natRepr d.month

/-- The month key built in `components/dashboard-content.tsx`
`calculateMonthlyData`:
`` `${date.getFullYear()}-${String(date.getMonth() + 1).padStart(2, "0")}` ``.
`String(NaN).padStart(2, "0")` is `"NaN"`, so an `Invalid Date` again
yields "NaN-NaN". -/
def monthKeyPadded : Option SimpleDate → String
  | none => "NaN-NaN"
  | some d => natRepr d.year ++ "-" ++ pad2 d.month

structure MonthTotals where
  income : ℚ
  expense : ℚ
  deriving DecidableEq, Repr

/-- One step of the JS pattern
`if (!m[k]) m[k] = {income:0, expense:0}; m[k].income += a` (or `.expense`):
update the entry in place if the key exists, else append a new entry. -/
def bumpMonth (m : List (String × MonthTotals)) (k : String) (isInc : Bool)
    (a : ℚ) : List (String × MonthTotals) :=
  match m with
  | [] => [(k, if isInc then ⟨a, 0⟩ else ⟨0, a⟩)]
  | (k0, v) :: rest =>
    if k0 = k then
      (k0, if isInc then ⟨v.income + a, v.expense⟩ else ⟨v.income, v.expense + a⟩) :: rest
    else
      (k0, v) :: bumpMonth rest k isInc a

/-- Reading `monthlyData[key]`, defaulting to zeroes for an absent key. -/
def monthLookup : List (String × MonthTotals) → String → MonthTotals
  | [], _ => ⟨0, 0⟩
  | (k0, v) :: rest, k => if k0 = k then v else monthLookup rest k

/-- `calculateMonthlyData` from `app/reports/page.tsx` (lines 59–81): skips
`is_credit` transactions entirely, buckets the rest by the unpadded month
key, adding `amount` to `income` for income rows and to `expense` for
expense rows. -/
def calculateMonthlyData_reports (ts : List Transaction) :
    List (String × MonthTotals) :=
  ts.foldl
    (fun m t =>
      if t.is_credit then m
      else bumpMonth m (monthKeyRaw t.date) (t.type = TxType.income) t.amount)
    []

/-- `calculateMonthlyData` from `components/dashboard-content.tsx`
(lines 56–76): no credit exclusion, zero-padded month key. -/
def calculateMonthlyData_dashboard (ts : List Transaction) :
    List (String × MonthTotals) :=
  ts.foldl
    (fun m t =>
      bumpMonth m (monthKeyPadded t.date) (t.type = TxType.income) t.amount)
    []

/-- The `monthlyData` accumulated inside `calculateFinancialStats` of the
dashboard server page: unpadded month key, no credit exclusion. -/
def calculateFinancialStats_monthlyData (ts : List Transaction) :
    List (String × MonthTotals) :=
  ts.foldl
    (fun m t =>
      bumpMonth m (monthKeyRaw t.date) (t.type = TxType.income) t.amount)
    []

/-- Sum of the amounts of the transactions satisfying `p`, the direct
full-list reduction used to state the reconciliation claims. -/
def sumAmounts (ts : List Transaction) (p : Transaction → Bool) : ℚ :=
  ((ts.filter p).map Transaction.amount).sum

theorem sumAmounts_nil (p : Transaction → Bool) : sumAmounts [] p = 0 := rfl

theorem sumAmounts_cons (t : Transaction) (ts : List Transaction)
    (p : Transaction → Bool) :
    sumAmounts (t :: ts) p =
      (if p t then t.amount else 0) + sumAmounts ts p := by
  by_cases h : p t <;> simp [sumAmounts, List.filter_cons, h]

theorem monthLookup_bumpMonth (m : List (String × MonthTotals)) (k k' : String)
    (inc : Bool) (a : ℚ) :
    monthLookup (bumpMonth m k inc a) k' =
      if k = k' then
        (if inc then
          ⟨(monthLookup m k').income + a, (monthLookup m k').expense⟩
         else
          ⟨(monthLookup m k').income, (monthLookup m k').expense + a⟩)
      else monthLookup m k' := by
  induction m with
  | nil =>
    by_cases h : k = k' <;> cases inc <;>
      simp [bumpMonth, monthLookup, h]
  | cons hd rest ih =>
    obtain ⟨k0, v⟩ := hd
    by_cases h1 : k0 = k
    · subst h1
      by_cases h2 : k0 = k' <;> cases inc <;>
        simp [bumpMonth, monthLookup, h2]
    · by_cases h2 : k0 = k'
      · subst h2
        have hkk' : ¬ k = k0 := fun h => h1 h.symm
        cases inc <;> simp [bumpMonth, monthLookup, h1, hkk']
      · simp [bumpMonth, monthLookup, h1, h2, ih]

/-- Per-key characterisation of the reports-page monthly fold, generalised
over the accumulator. -/
theorem monthLookup_reports_fold (ts : List Transaction)
    (m : List (String × MonthTotals)) (k : String) :
    monthLookup
        (ts.foldl
          (fun m t =>
            if t.is_credit then m
            else bumpMonth m (monthKeyRaw t.date) (t.type = TxType.income)
              t.amount)
          m) k =
      ⟨(monthLookup m k).income +
        sumAmounts ts
          (fun t => !t.is_credit && t.type == TxType.income &&
            monthKeyRaw t.date == k),
       (monthLookup m k).expense +
        sumAmounts ts
          (fun t => !t.is_credit && t.type == TxType.expense &&
            monthKeyRaw t.date == k)⟩ := by
  induction ts generalizing m with
  | nil => simp [sumAmounts]
  | cons t rest ih =>
    rw [List.foldl_cons, ih, sumAmounts_cons, sumAmounts_cons]
    by_cases hc : t.is_credit
    · simp [hc]
      try ring_nf
    · by_cases hk : monthKeyRaw t.date = k
      · cases hty : t.type <;>
          simp [hc, hty, monthLookup_bumpMonth, hk] <;> try ring_nf
      · cases hty : t.type <;>
          simp [hc, hty, monthLookup_bumpMonth, hk]

theorem sumAmounts_congr {ts : List Transaction} {p q : Transaction → Bool}
    (h : ∀ t ∈ ts, p t = q t) : sumAmounts ts p = sumAmounts ts q := by
  unfold sumAmounts
  rw [List.filter_congr h]

/-- Net cash flow recorded in a monthly-data object: the sum over its
entries of `income - expense`. -/
def netTotal (m : List (String × MonthTotals)) : ℚ :=
  (m.map (fun kv => kv.2.income - kv.2.expense)).sum

theorem netTotal_bumpMonth (m : List (String × MonthTotals)) (k : String)
    (inc : Bool) (a : ℚ) :
    netTotal (bumpMonth m k inc a) = netTotal m + (if inc then a else -a) := by
  induction m with
  | nil => cases inc <;> simp [bumpMonth, netTotal]
  | cons hd rest ih =>
    obtain ⟨k0, v⟩ := hd
    by_cases h1 : k0 = k
    · cases inc <;> simp [bumpMonth, netTotal, h1] <;> ring
    · simp only [bumpMonth]
      rw [if_neg h1]
      simp only [netTotal, List.map_cons, List.sum_cons] at ih ⊢
      rw [ih]
      ring

theorem netTotal_reports_fold (ts : List Transaction)
    (m : List (String × MonthTotals)) :
    netTotal
        (ts.foldl
          (fun m t =>
            if t.is_credit then m
            else bumpMonth m (monthKeyRaw t.date) (t.type = TxType.income)
              t.amount)
          m) =
      netTotal m +
        sumAmounts ts (fun t => !t.is_credit && t.type == TxType.income) -
        sumAmounts ts (fun t => !t.is_credit && t.type == TxType.expense) := by
  induction ts generalizing m with
  | nil => simp [sumAmounts]
  | cons t rest ih =>
    rw [List.foldl_cons, ih, sumAmounts_cons, sumAmounts_cons]
    by_cases hc : t.is_credit
    · simp [hc]
      try ring
    · cases hty : t.type <;>
        simp [hc, hty, netTotal_bumpMonth] <;> try ring

/-- The single original credit-purchase entry of the example scenario: a
1200 purchase amortised over 12 installments, stored with a
per-installment `amount` of 100. -/
def creditTx100 : Transaction :=
  { id := "tx-1"
    user_id := "user-1"
    amount := 100
    description := "TV"
    date := some ⟨2024, 1, 15⟩
    type := TxType.expense
    category := some "shopping"
    notes := none
    is_credit := true
    installments := some 12
    original_amount := some 1200
    remaining_installments := some 11 }

/-- C1 (counterexample). The claim asserts both that `isCredit=true`
expense entries contribute nothing to any month's expense total, and that
for a list containing one credit purchase with per-installment amount 100
the month's expense total is 100. The code refutes both halves: the
dashboard implementation adds the credit entry's per-installment amount
(100) to the month's expense total, while the reports implementation skips
the entry entirely, giving an expense total of 0, not 100. -/
theorem c1_counterexample :
    (monthLookup (calculateMonthlyData_dashboard [creditTx100])
        "2024-01").expense = 100 ∧
      (100 : ℚ) ≠ 0 ∧
      (monthLookup (calculateMonthlyData_reports [creditTx100])
        "2024-1").expense = 0 ∧
      (0 : ℚ) ≠ 100 ∧
      (calculateMonthlyData_reports [creditTx100] = []) := by
  decide

/-- C1 (amended). In the reports implementation, monthly totals group
transactions by the month key of their date and, per group, sum the
amounts of non-credit income transactions into `income` and of non-credit
expense transactions into `expense`; `isCredit=true` entries (in
particular the original credit-purchase entry) contribute nothing to any
month's totals, so a list containing only the 100-per-installment credit
purchase yields an expense total of 0 for that month (not 100 and not
1200). In the dashboard implementation credit entries are not excluded:
the same entry contributes its per-installment amount 100 (not its
original amount 1200) to that month's expense total. -/
theorem c1_monthly_credit_exclusion :
    (∀ (ts : List Transaction) (k : String),
      monthLookup (calculateMonthlyData_reports ts) k =
        ⟨sumAmounts ts
            (fun t => !t.is_credit && t.type == TxType.income &&
              monthKeyRaw t.date == k),
          sumAmounts ts
            (fun t => !t.is_credit && t.type == TxType.expense &&
              monthKeyRaw t.date == k)⟩) ∧
      (monthLookup (calculateMonthlyData_dashboard [creditTx100])
          "2024-01").expense = 100 ∧
      (monthLookup (calculateMonthlyData_reports [creditTx100])
          "2024-1").expense = 0 := by
  refine ⟨fun ts k => ?_, by decide, by decide⟩
  have h := monthLookup_reports_fold ts [] k
  simpa [calculateMonthlyData_reports, monthLookup] using h

/-- A plain income transaction used in concrete witnesses. -/
def sampleIncome : Transaction :=
  { id := "tx-i"
    user_id := "user-1"
    amount := 3000
    description := "Salary"
    date := some ⟨2024, 2, 1⟩
    type := TxType.income
    category := some "salary"
    notes := none
    is_credit := false
    installments := none
    original_amount := none
    remaining_installments := none }

/-- A plain (non-credit) expense transaction used in concrete witnesses. -/
def sampleExpense : Transaction :=
  { id := "tx-e"
    user_id := "user-1"
    amount := 1000
    description := "Rent"
    date := some ⟨2024, 2, 3⟩
    type := TxType.expense
    category := some "housing"
    notes := none
    is_credit := false
    installments := none
    original_amount := none
    remaining_installments := none }

/-- C7. Summing `income - expense` across all keys of the reports-page
monthly-totals output reconciles with the direct full-list reduction
`sum(amount of income transactions) - sum(amount of non-credit expense
transactions)`. The hypothesis is the data-model invariant that
`kind = income` rows never carry credit fields (the create paths only ever
set `is_credit` on expenses). -/
theorem c7_reconciliation (ts : List Transaction)
    (h : ∀ t ∈ ts, t.type = TxType.income → t.is_credit = false) :
    netTotal (calculateMonthlyData_reports ts) =
      sumAmounts ts (fun t => t.type == TxType.income) -
        sumAmounts ts (fun t => t.type == TxType.expense && !t.is_credit) := by
  have h1 := netTotal_reports_fold ts []
  have e1 : sumAmounts ts (fun t => !t.is_credit && t.type == TxType.income) =
      sumAmounts ts (fun t => t.type == TxType.income) := by
    apply sumAmounts_congr
    intro t ht
    by_cases hty : t.type = TxType.income
    · have hc := h t ht hty
      simp [hty, hc]
    · simp [hty]
  have e2 : sumAmounts ts (fun t => !t.is_credit && t.type == TxType.expense) =
      sumAmounts ts (fun t => t.type == TxType.expense && !t.is_credit) := by
    apply sumAmounts_congr
    intro t _
    exact Bool.and_comm _ _
  rw [calculateMonthlyData_reports, h1, e1, e2]
  simp [netTotal]

/-- The row filter of the `payInstallment` server action's fetch:
`.eq("id", transactionId).eq("user_id", userId).eq("is_credit", true)`. -/
def payFilter (userId txId : String) (t : Transaction) : Bool :=
  t.id == txId && t.user_id == userId && t.is_credit

/-- The update step of `payInstallment`: set `remaining_installments` on
every row matching `.eq("id", transactionId).eq("user_id", userId)`. -/
def payInstallmentUpdate (userId txId : String) (r : Nat)
    (db : List Transaction) : List Transaction :=
  db.map (fun t =>
    if t.id == txId && t.user_id == userId then
      { t with remaining_installments := some r }
    else t)

/-- The payment expense row inserted by `payInstallment`. The row id is
store-assigned, modelled by the parameter `freshId`; `date` is the current
time `now`. -/
def paymentRow (now : SimpleDate) (freshId userId txId : String)
    (tx : Transaction) : Transaction :=
  { id := freshId
    user_id := userId
    amount := tx.amount
    description := "Installment Payment for: " ++ tx.description
    date := some now
    type := TxType.expense
    category := tx.category
    notes := some ("Payment for original transaction ID: " ++ txId)
    is_credit := false
    installments := none
    original_amount := none
    remaining_installments := none }

structure PayResult where
  db : List Transaction
  success : Bool
  message : String
  deriving DecidableEq, Repr

/-- `payInstallment` from `app/reports/actions.ts`, as a transition on the
user's transaction table. The fetch uses `.maybeSingle()`, which yields the
row when exactly one matches, null when none does, and an error when
several do. A null or non-positive `remaining_installments` fails before
any write; otherwise the original row's counter is decremented and the
payment expense row is appended. -/
def payInstallment (now : SimpleDate) (freshId userId txId : String)
    (db : List Transaction) : PayResult :=
  match db.filter (payFilter userId txId) with
  | [] => ⟨db, false, "Credit transaction not found or access denied."⟩
  | [tx] =>
    match tx.remaining_installments with
    | none => ⟨db, false, "No remaining installments to pay."⟩
    | some 0 => ⟨db, false, "No remaining installments to pay."⟩
    | some (r + 1) =>
      ⟨payInstallmentUpdate userId txId r db ++
          [paymentRow now freshId userId txId tx],
        true, "Installment paid successfully."⟩
  | _ :: _ :: _ => ⟨db, false, "Failed to fetch transaction details."⟩

theorem payInstallment_eq_of_found (now : SimpleDate)
    (freshId userId txId : String) (db : List Transaction) (tx : Transaction)
    (hone : db.filter (payFilter userId txId) = [tx]) :
    payInstallment now freshId userId txId db =
      match tx.remaining_installments with
      | none => ⟨db, false, "No remaining installments to pay."⟩
      | some 0 => ⟨db, false, "No remaining installments to pay."⟩
      | some (r + 1) =>
        ⟨payInstallmentUpdate userId txId r db ++
            [paymentRow now freshId userId txId tx],
          true, "Installment paid successfully."⟩ := by
  unfold payInstallment
  rw [hone]

/-- C2. For a stored credit transaction `tx` (the unique row matching the
action's id/user/is_credit fetch): the operation succeeds exactly when
`remaining_installments` is a positive number; on success the original
row's counter is decremented by one, every row not matching the update
filter is kept unchanged, exactly one row is added, and that row is an
expense dated now with the original per-installment amount,
`is_credit = false`, the original's category, and a note referencing the
source transaction id; when `remaining_installments` is null or `0` the
action fails with the "no installments remaining" message and the table is
returned unchanged. -/
theorem c2_payInstallment_spec (now : SimpleDate)
    (freshId userId txId : String) (db : List Transaction) (tx : Transaction)
    (hone : db.filter (payFilter userId txId) = [tx]) :
    ((tx.remaining_installments = none ∨ tx.remaining_installments = some 0) →
      payInstallment now freshId userId txId db =
        ⟨db, false, "No remaining installments to pay."⟩) ∧
    ((payInstallment now freshId userId txId db).success = true ↔
      ∃ r, tx.remaining_installments = some r ∧ 0 < r) ∧
    (∀ r : Nat, tx.remaining_installments = some (r + 1) →
      (payInstallment now freshId userId txId db).success = true ∧
      { tx with remaining_installments := some r } ∈
        (payInstallment now freshId userId txId db).db ∧
      (∀ t ∈ db, ¬(t.id = txId ∧ t.user_id = userId) →
        t ∈ (payInstallment now freshId userId txId db).db) ∧
      (payInstallment now freshId userId txId db).db.length = db.length + 1 ∧
      (∃ p ∈ (payInstallment now freshId userId txId db).db,
        p.type = TxType.expense ∧ p.is_credit = false ∧
        p.amount = tx.amount ∧ p.category = tx.category ∧
        p.date = some now ∧
        p.notes = some ("Payment for original transaction ID: " ++ txId))) := by
  have heval := payInstallment_eq_of_found now freshId userId txId db tx hone
  have htxmem : tx ∈ db := by
    have : tx ∈ db.filter (payFilter userId txId) := by
      rw [hone]; exact List.mem_singleton_self tx
    exact List.mem_of_mem_filter this
  have htxfil : payFilter userId txId tx = true := by
    have : tx ∈ db.filter (payFilter userId txId) := by
      rw [hone]; exact List.mem_singleton_self tx
    exact List.of_mem_filter this
  have hids : tx.id = txId ∧ tx.user_id = userId := by
    simp only [payFilter, Bool.and_eq_true, beq_iff_eq] at htxfil
    exact ⟨htxfil.1.1, htxfil.1.2⟩
  refine ⟨?_, ?_, ?_⟩
  · rintro (h0 | h0) <;> rw [heval, h0]
  · rw [heval]
    cases hr : tx.remaining_installments with
    | none => simp
    | some r =>
      cases r with
      | zero => simp
      | succ r =>
        exact iff_of_true rfl ⟨r + 1, rfl, Nat.succ_pos r⟩
  · intro r hr
    rw [heval, hr]
    refine ⟨rfl, ?_, ?_, ?_, ?_⟩
    · apply List.mem_append_left
      simp only [payInstallmentUpdate, List.mem_map]
      exact ⟨tx, htxmem, by simp [hids.1, hids.2]⟩
    · intro t ht hne
      apply List.mem_append_left
      have hcond : (t.id == txId && t.user_id == userId) = false := by
        by_cases h1 : t.id = txId
        · by_cases h2 : t.user_id = userId
          · exact absurd ⟨h1, h2⟩ hne
          · simp [h1, h2]
        · simp [h1]
      simp only [payInstallmentUpdate, List.mem_map]
      exact ⟨t, ht, by simp [hcond]⟩
    · simp [payInstallmentUpdate]
    · refine ⟨paymentRow now freshId userId txId tx, ?_, rfl, rfl, rfl, rfl,
        rfl, rfl⟩
      apply List.mem_append_right
      exact List.mem_singleton_self _

/-- C2 witness: paying an installment on the concrete credit row with 11
remaining installments succeeds and stores the decremented row. -/
theorem c2_witness :
    (payInstallment ⟨2024, 3, 1⟩ "tx-new" "user-1" "tx-1"
        [creditTx100, sampleIncome]).success = true ∧
      { creditTx100 with remaining_installments := some 10 } ∈
        (payInstallment ⟨2024, 3, 1⟩ "tx-new" "user-1" "tx-1"
          [creditTx100, sampleIncome]).db := by
  have h := c2_payInstallment_spec ⟨2024, 3, 1⟩ "tx-new" "user-1" "tx-1"
    [creditTx100, sampleIncome] creditTx100 (by decide)
  have hs := h.2.2 10 rfl
  exact ⟨hs.1, hs.2.1⟩

/-- Input values of the quick-transaction form after react-hook-form
coercion (`z.coerce.number()` applied to the numeric fields). -/
structure QuickFormInput where
  amount : ℚ
  description : String
  date : SimpleDate
  type : TxType
  category : Option String
  notes : Option String
  isCredit : Bool
  installments : Option Nat
  deriving DecidableEq, Repr

/-- The zod `formSchema` of `QuickTransactionForm`: positive `amount`,
`description` of length at least 2, optional `installments` constrained to
[1,24] when present, and the refinement `!data.isCredit ||
data.installments` (a truthy installments value is required for credit
purchases). -/
def formSchemaValidate (v : QuickFormInput) : Bool :=
  decide (0 < v.amount) &&
  decide (2 ≤ v.description.length) &&
  (match v.installments with
   | none => true
   | some n => decide (1 ≤ n) && decide (n ≤ 24)) &&
  (!v.isCredit ||
   (match v.installments with
    | none => false
    | some n => decide (n ≠ 0)))

/-- `values.installments || 1`: the JS or-default, where `undefined` and
`0` are both falsy. -/
def installmentsOrOne : Option Nat → Nat
  | none => 1
  | some 0 => 1
  | some (n + 1) => n + 1

/-- JS `x || null` applied to an optional string: the empty string is
falsy and becomes null. -/
def stringOrNull : Option String → Option String
  | none => none
  | some s => if s = "" then none else some s

/-- The `NewTransaction` insert row (without the store-assigned id,
user_id and created_at columns). -/
structure NewTransactionRow where
  amount : ℚ
  description : String
  date : SimpleDate
  type : TxType
  category : Option String
  notes : Option String
  is_credit : Option Bool
  installments : Option Nat
  original_amount : Option ℚ
  remaining_installments : Option Nat
  deriving DecidableEq, Repr

/-- The transaction constructed by `QuickTransactionForm.onSubmit`
(lines 141–161 of the form source): for a credit expense the stored
`amount` is `values.amount / (values.installments || 1)` — a plain
division with no rounding — with `original_amount` holding the entered
total and `remaining_installments` one less than the chosen count. -/
def buildQuickTransaction (v : QuickFormInput) : NewTransactionRow :=
  let isExpense := v.type == TxType.expense
  let isCreditPurchase := isExpense && v.isCredit
  let transactionAmount :=
    if isCreditPurchase then v.amount / (installmentsOrOne v.installments : ℚ)
    else v.amount
  { amount := transactionAmount
    description := v.description
    date := v.date
    type := v.type
    category := stringOrNull v.category
    notes := stringOrNull v.notes
    is_credit := if isCreditPurchase then some true else none
    installments := if isCreditPurchase then v.installments else none
    original_amount := if isCreditPurchase then some v.amount else none
    remaining_installments :=
      if isCreditPurchase then some (installmentsOrOne v.installments - 1)
      else none }

/-- Round-half-to-even ("banker's rounding") to two decimal places,
written from the claim's wording to compare against the stored amount. -/
def bankersRound2 (q : ℚ) : ℚ :=
  let x := q * 100
  let n : ℤ := ⌊x⌋
  let r : ℤ :=
    if x - (n : ℚ) < 1 / 2 then n
    else if (1 / 2 : ℚ) < x - (n : ℚ) then n + 1
    else if n % 2 = 0 then n else n + 1
  (r : ℚ) / 100

/-- The concrete credit purchase of the counterexample: a 100 total over
3 installments. -/
def creditInput3 : QuickFormInput :=
  { amount := 100
    description := "Laptop"
    date := ⟨2024, 5, 1⟩
    type := TxType.expense
    category := some "shopping"
    notes := none
    isCredit := true
    installments := some 3 }

/-- C3 (counterexample). The form validates a 100-total, 3-installment
credit purchase and stores the exact quotient `100/3` as the
per-installment amount; banker's rounding to 2 decimal places would give
`33.33`, which differs, so the claimed rounding does not happen (the
source performs a plain division with no rounding call at all). -/
theorem c3_counterexample :
    formSchemaValidate creditInput3 = true ∧
      (buildQuickTransaction creditInput3).amount = 100 / 3 ∧
      bankersRound2 (100 / 3) = 3333 / 100 ∧
      ((100 : ℚ) / 3) ≠ 3333 / 100 := by
  have hfloor : ⌊(100 / 3 : ℚ) * 100⌋ = 3333 := by
    rw [Int.floor_eq_iff]
    norm_num
  refine ⟨?_, ?_, ?_, ?_⟩
  · norm_num [formSchemaValidate, creditInput3]
    decide
  · norm_num [buildQuickTransaction, creditInput3, installmentsOrOne]
  · simp only [bankersRound2, hfloor]
    norm_num
  · norm_num

/-- C3 (amended). On the validated create path for a credit purchase, the
stored record has `amount = originalAmount / installmentsTotal` exactly
(JS floating-point division in the source, with no rounding of any kind),
`is_credit = true`, `original_amount = originalAmount` and
`remaining_installments = installmentsTotal - 1`; the schema rejects
submissions whose `installmentsTotal` lies outside [1,24] or whose
`originalAmount` is not positive; and `amount * installmentsTotal` equals
`originalAmount` exactly (in particular to within one minor-unit rounding
unit). -/
theorem c3_credit_create :
    (∀ v : QuickFormInput, formSchemaValidate v = true → v.isCredit = true →
      v.type = TxType.expense →
      ∃ n : Nat, v.installments = some n ∧ 1 ≤ n ∧ n ≤ 24 ∧
        (buildQuickTransaction v).amount = v.amount / (n : ℚ) ∧
        (buildQuickTransaction v).is_credit = some true ∧
        (buildQuickTransaction v).original_amount = some v.amount ∧
        (buildQuickTransaction v).remaining_installments = some (n - 1) ∧
        (buildQuickTransaction v).amount * (n : ℚ) = v.amount) ∧
    (∀ v : QuickFormInput, v.amount ≤ 0 → formSchemaValidate v = false) ∧
    (∀ v : QuickFormInput, ∀ n : Nat, v.installments = some n →
      (n < 1 ∨ 24 < n) → formSchemaValidate v = false) := by
  refine ⟨?_, ?_, ?_⟩
  · intro v hval hcredit hexp
    cases hinst : v.installments with
    | none =>
      rw [formSchemaValidate, hinst, hcredit] at hval
      simp at hval
    | some n =>
      rw [formSchemaValidate, hinst, hcredit] at hval
      simp only [Bool.and_eq_true, decide_eq_true_eq, Bool.not_true,
        Bool.false_or] at hval
      obtain ⟨⟨⟨ha, hd⟩, hn1, hn24⟩, hnz⟩ := hval
      have hio : installmentsOrOne (some n) = n := by
        cases n with
        | zero => omega
        | succ m => rfl
      refine ⟨n, rfl, hn1, hn24, ?_, ?_, ?_, ?_, ?_⟩
      · simp [buildQuickTransaction, hexp, hcredit, hinst, hio]
      · simp [buildQuickTransaction, hexp, hcredit]
      · simp [buildQuickTransaction, hexp, hcredit]
      · simp [buildQuickTransaction, hexp, hcredit, hinst, hio]
      · have hne : (n : ℚ) ≠ 0 := by
          exact_mod_cast Nat.pos_iff_ne_zero.mp hn1
        simp only [buildQuickTransaction, hexp, hcredit, hinst, hio]
        simp only [beq_self_eq_true, Bool.and_self, if_pos]
        exact div_mul_cancel₀ v.amount hne
  · intro v h
    have hnot : ¬ (0 < v.amount) := not_lt.mpr h
    simp [formSchemaValidate, hnot]
  · intro v n hinst hout
    rw [formSchemaValidate, hinst]
    rcases hout with h | h
    · have : ¬ (1 ≤ n) := by omega
      simp [this]
    · have : ¬ (n ≤ 24) := by omega
      simp [this]

/-- C3 witness: the 1200-total, 12-installment credit purchase stores
amount 100 with 11 remaining installments. -/
theorem c3_witness :
    ∃ n : Nat,
      ({ amount := 1200, description := "TV", date := ⟨2024, 1, 15⟩,
         type := TxType.expense, category := some "shopping", notes := none,
         isCredit := true,
         installments := some 12 } : QuickFormInput).installments = some n ∧
      1 ≤ n ∧ n ≤ 24 ∧
      (buildQuickTransaction
        { amount := 1200, description := "TV", date := ⟨2024, 1, 15⟩,
          type := TxType.expense, category := some "shopping", notes := none,
          isCredit := true, installments := some 12 }).amount =
        (1200 : ℚ) / (n : ℚ) ∧
      (buildQuickTransaction
        { amount := 1200, description := "TV", date := ⟨2024, 1, 15⟩,
          type := TxType.expense, category := some "shopping", notes := none,
          isCredit := true, installments := some 12 }).is_credit = some true ∧
      (buildQuickTransaction
        { amount := 1200, description := "TV", date := ⟨2024, 1, 15⟩,
          type := TxType.expense, category := some "shopping", notes := none,
          isCredit := true, installments := some 12 }).original_amount =
        some 1200 ∧
      (buildQuickTransaction
        { amount := 1200, description := "TV", date := ⟨2024, 1, 15⟩,
          type := TxType.expense, category := some "shopping", notes := none,
          isCredit := true,
          installments := some 12 }).remaining_installments = some (n - 1) ∧
      (buildQuickTransaction
        { amount := 1200, description := "TV", date := ⟨2024, 1, 15⟩,
          type := TxType.expense, category := some "shopping", notes := none,
          isCredit := true, installments := some 12 }).amount * (n : ℚ) =
        1200 :=
  c3_credit_create.1
    { amount := 1200, description := "TV", date := ⟨2024, 1, 15⟩,
      type := TxType.expense, category := some "shopping", notes := none,
      isCredit := true, installments := some 12 }
    (by decide) rfl rfl

/-- One step of `date-fns subMonths` on a (year, month) pair. -/
def subMonth1 (ym : Nat × Nat) : Nat × Nat :=
  if ym.2 = 1 then (ym.1 - 1, 12) else (ym.1, ym.2 - 1)

/-- `subMonths(date, n)` at month granularity. -/
def subMonthN (ym : Nat × Nat) : Nat → Nat × Nat
  | 0 => ym
  | n + 1 => subMonth1 (subMonthN ym n)

/-- The trailing six calendar months including the current one, oldest
first — `Array.from({length: 6}, (_, i) => subMonths(new Date(), i))`
followed by `.reverse()`. -/
def last6Months (today : SimpleDate) : List (Nat × Nat) :=
  ((List.range 6).map (fun i => subMonthN (today.year, today.month) i)).reverse

/-- `isWithinInterval(new Date(t.date), {start: startOfMonth, end:
endOfMonth})`: true exactly when the date is valid and falls in the given
month; an `Invalid Date` compares false. -/
def dateInMonth : Option SimpleDate → Nat × Nat → Bool
  | none, _ => false
  | some d, ym => d.year == ym.1 && d.month == ym.2

structure MonthTrend where
  month : Nat × Nat
  income : ℚ
  expense : ℚ
  savings : ℚ
  savingsRate : ℚ
  deriving DecidableEq, Repr

/-- The default used for an out-of-range month access (never reached, the
month list always has six entries). -/
def mt0 : MonthTrend := ⟨(0, 0), 0, 0, 0, 0⟩

structure SpendingTrends where
  monthlyTotals : List MonthTrend
  currentMonth : MonthTrend
  previousMonth : Option MonthTrend
  incomeChange : ℚ
  expenseChange : ℚ
  deriving DecidableEq, Repr

/-- The per-month record built inside the reports-page trends loop:
non-credit expenses only. -/
def trendForMonth_reports (ts : List Transaction) (ym : Nat × Nat) :
    MonthTrend :=
  let monthTransactions := ts.filter (fun t => dateInMonth t.date ym)
  let income := sumAmounts monthTransactions
    (fun t => t.type == TxType.income)
  let expense := sumAmounts monthTransactions
    (fun t => t.type == TxType.expense && !t.is_credit)
  let savings := income - expense
  let savingsRate := if 0 < income then savings / income * 100 else 0
  ⟨ym, income, expense, savings, savingsRate⟩

/-- The per-month record built inside the dashboard trends loop: all
expenses, credit entries included. -/
def trendForMonth_dashboard (ts : List Transaction) (ym : Nat × Nat) :
    MonthTrend :=
  let monthTransactions := ts.filter (fun t => dateInMonth t.date ym)
  let income := sumAmounts monthTransactions
    (fun t => t.type == TxType.income)
  let expense := sumAmounts monthTransactions
    (fun t => t.type == TxType.expense)
  let savings := income - expense
  let savingsRate := if 0 < income then savings / income * 100 else 0
  ⟨ym, income, expense, savings, savingsRate⟩

/-- `calculateSpendingTrends` from `app/reports/page.tsx` (lines 105–168):
per trailing month, income / non-credit expense / savings / savings rate;
month-over-month change computed as the standard percentage delta when the
previous month's value is positive, and `100` otherwise. -/
def calculateSpendingTrends_reports (today : SimpleDate)
    (ts : List Transaction) : SpendingTrends :=
  let months := last6Months today
  let monthlyTotals := months.map (trendForMonth_reports ts)
  if 2 ≤ monthlyTotals.length then
    let currentMonth := monthlyTotals.getD (monthlyTotals.length - 1) mt0
    let previousMonth := monthlyTotals.getD (monthlyTotals.length - 2) mt0
    let incomeChange :=
      if 0 < previousMonth.income then
        (currentMonth.income - previousMonth.income) /
          previousMonth.income * 100
      else 100
    let expenseChange :=
      if 0 < previousMonth.expense then
        (currentMonth.expense - previousMonth.expense) /
          previousMonth.expense * 100
      else 100
    ⟨monthlyTotals, currentMonth, some previousMonth, incomeChange,
      expenseChange⟩
  else
    ⟨monthlyTotals, monthlyTotals.getD (monthlyTotals.length - 1) mt0, none,
      0, 0⟩

/-- `calculateSpendingTrends` from `components/dashboard-content.tsx`
(lines 101–162): the per-month expense here does *not* exclude credit
entries, and a zero previous month yields `100` when the current value is
positive and `0` when it is zero as well. -/
def calculateSpendingTrends_dashboard (today : SimpleDate)
    (ts : List Transaction) : SpendingTrends :=
  let months := last6Months today
  let monthlyTotals := months.map (trendForMonth_dashboard ts)
  let currentMonth := monthlyTotals.getD (monthlyTotals.length - 1) mt0
  if 2 ≤ monthlyTotals.length then
    let previousMonth := monthlyTotals.getD (monthlyTotals.length - 2) mt0
    let incomeChange :=
      if 0 < previousMonth.income then
        (currentMonth.income - previousMonth.income) /
          previousMonth.income * 100
      else if 0 < currentMonth.income then 100 else 0
    let expenseChange :=
      if 0 < previousMonth.expense then
        (currentMonth.expense - previousMonth.expense) /
          previousMonth.expense * 100
      else if 0 < currentMonth.expense then 100 else 0
    ⟨monthlyTotals, currentMonth, some previousMonth, incomeChange,
      expenseChange⟩
  else
    let incomeChange := if 0 < currentMonth.income then (100 : ℚ) else 0
    let expenseChange := if 0 < currentMonth.expense then (100 : ℚ) else 0
    ⟨monthlyTotals, currentMonth, none, incomeChange, expenseChange⟩

/-- The claimed month-over-month change rule: 100 when rising from zero,
0 when both months are zero, and the standard percentage delta
otherwise. -/
def changeRule (prev cur change : ℚ) : Prop :=
  (prev = 0 → 0 < cur → change = 100) ∧
  (prev = 0 → cur = 0 → change = 0) ∧
  (prev ≠ 0 → 0 ≤ prev → change = (cur - prev) / prev * 100)

theorem sumAmounts_nonneg (l : List Transaction) (p : Transaction → Bool)
    (h : ∀ t ∈ l, 0 < t.amount) : 0 ≤ sumAmounts l p := by
  apply List.sum_nonneg
  intro x hx
  simp only [sumAmounts, List.mem_map] at hx
  obtain ⟨t, ht, rfl⟩ := hx
  exact le_of_lt (h t (List.mem_of_mem_filter ht))

theorem trendForMonth_dashboard_nonneg (ts : List Transaction)
    (hpos : ∀ t ∈ ts, 0 < t.amount) (ym : Nat × Nat) :
    0 ≤ (trendForMonth_dashboard ts ym).income ∧
      0 ≤ (trendForMonth_dashboard ts ym).expense := by
  constructor <;>
    (apply sumAmounts_nonneg
     intro t ht
     exact hpos t (List.mem_of_mem_filter ht))

theorem getD_map_trend (l : List (Nat × Nat)) (f : Nat × Nat → MonthTrend)
    (n : Nat) (h : n < l.length) :
    (l.map f).getD n mt0 = f (l.getD n (0, 0)) := by
  rw [List.getD_eq_getElem _ _ (by simpa using h), List.getElem_map,
    List.getD_eq_getElem _ _ h]

theorem dashboard_trends_eq (today : SimpleDate) (ts : List Transaction) :
    calculateSpendingTrends_dashboard today ts =
      ⟨(last6Months today).map (trendForMonth_dashboard ts),
        ((last6Months today).map (trendForMonth_dashboard ts)).getD 5 mt0,
        some (((last6Months today).map (trendForMonth_dashboard ts)).getD 4
          mt0),
        (if 0 < (((last6Months today).map
              (trendForMonth_dashboard ts)).getD 4 mt0).income then
          ((((last6Months today).map
                (trendForMonth_dashboard ts)).getD 5 mt0).income -
              (((last6Months today).map
                (trendForMonth_dashboard ts)).getD 4 mt0).income) /
            (((last6Months today).map
              (trendForMonth_dashboard ts)).getD 4 mt0).income * 100
        else if 0 < (((last6Months today).map
              (trendForMonth_dashboard ts)).getD 5 mt0).income then 100
        else 0),
        (if 0 < (((last6Months today).map
              (trendForMonth_dashboard ts)).getD 4 mt0).expense then
          ((((last6Months today).map
                (trendForMonth_dashboard ts)).getD 5 mt0).expense -
              (((last6Months today).map
                (trendForMonth_dashboard ts)).getD 4 mt0).expense) /
            (((last6Months today).map
              (trendForMonth_dashboard ts)).getD 4 mt0).expense * 100
        else if 0 < (((last6Months today).map
              (trendForMonth_dashboard ts)).getD 5 mt0).expense then 100
        else 0)⟩ := by
  have hlen :
      ((last6Months today).map (trendForMonth_dashboard ts)).length = 6 := by
    simp [last6Months]
  simp only [calculateSpendingTrends_dashboard, hlen]
  norm_num

theorem reports_trends_eq (today : SimpleDate) (ts : List Transaction) :
    calculateSpendingTrends_reports today ts =
      ⟨(last6Months today).map (trendForMonth_reports ts),
        ((last6Months today).map (trendForMonth_reports ts)).getD 5 mt0,
        some (((last6Months today).map (trendForMonth_reports ts)).getD 4
          mt0),
        (if 0 < (((last6Months today).map
              (trendForMonth_reports ts)).getD 4 mt0).income then
          ((((last6Months today).map
                (trendForMonth_reports ts)).getD 5 mt0).income -
              (((last6Months today).map
                (trendForMonth_reports ts)).getD 4 mt0).income) /
            (((last6Months today).map
              (trendForMonth_reports ts)).getD 4 mt0).income * 100
        else 100),
        (if 0 < (((last6Months today).map
              (trendForMonth_reports ts)).getD 4 mt0).expense then
          ((((last6Months today).map
                (trendForMonth_reports ts)).getD 5 mt0).expense -
              (((last6Months today).map
                (trendForMonth_reports ts)).getD 4 mt0).expense) /
            (((last6Months today).map
              (trendForMonth_reports ts)).getD 4 mt0).expense * 100
        else 100)⟩ := by
  have hlen :
      ((last6Months today).map (trendForMonth_reports ts)).length = 6 := by
    simp [last6Months]
  simp only [calculateSpendingTrends_reports, hlen]
  norm_num

/-- C4 (counterexample). On the empty list both trailing months have value
0, so the claim demands a change of 0; the reports implementation returns
100 (its zero-previous branch ignores the current value). -/
theorem c4_counterexample :
    ((calculateSpendingTrends_reports ⟨2024, 6, 15⟩
        []).previousMonth.getD mt0).income = 0 ∧
      (calculateSpendingTrends_reports ⟨2024, 6, 15⟩
        []).currentMonth.income = 0 ∧
      (calculateSpendingTrends_reports ⟨2024, 6, 15⟩ []).incomeChange = 100 ∧
      (100 : ℚ) ≠ 0 := by
  refine ⟨?_, ?_, ?_, by norm_num⟩ <;> decide

/-- C4 (amended). For transaction lists with positive amounts, the
dashboard implementation's month-over-month change for income and for
expense between the last two computed months satisfies the claimed rule
(previous 0 and current > 0 gives 100; both 0 gives 0; otherwise the
standard percentage delta). The reports implementation instead returns 100
whenever the previous month's value is 0, regardless of the current value
— in particular 100, not 0, when both months are 0. -/
theorem c4_trends_change (today : SimpleDate) (ts : List Transaction)
    (hpos : ∀ t ∈ ts, 0 < t.amount) :
    changeRule
        ((calculateSpendingTrends_dashboard today
          ts).previousMonth.getD mt0).income
        (calculateSpendingTrends_dashboard today ts).currentMonth.income
        (calculateSpendingTrends_dashboard today ts).incomeChange ∧
      changeRule
        ((calculateSpendingTrends_dashboard today
          ts).previousMonth.getD mt0).expense
        (calculateSpendingTrends_dashboard today ts).currentMonth.expense
        (calculateSpendingTrends_dashboard today ts).expenseChange ∧
      0 ≤ ((calculateSpendingTrends_dashboard today
        ts).previousMonth.getD mt0).income ∧
      0 ≤ ((calculateSpendingTrends_dashboard today
        ts).previousMonth.getD mt0).expense ∧
      (((calculateSpendingTrends_reports today
          ts).previousMonth.getD mt0).income = 0 →
        (calculateSpendingTrends_reports today ts).incomeChange = 100) ∧
      (((calculateSpendingTrends_reports today
          ts).previousMonth.getD mt0).expense = 0 →
        (calculateSpendingTrends_reports today ts).expenseChange = 100) := by
  have h4 : 4 < (last6Months today).length := by simp [last6Months]
  have hprev := getD_map_trend (last6Months today)
    (trendForMonth_dashboard ts) 4 h4
  have hnn := trendForMonth_dashboard_nonneg ts hpos
    ((last6Months today).getD 4 (0, 0))
  rw [dashboard_trends_eq, reports_trends_eq]
  simp only [Option.getD_some]
  refine ⟨⟨?_, ?_, ?_⟩, ⟨?_, ?_, ?_⟩, ?_, ?_, ?_, ?_⟩
  · intro hp hc
    rw [hp, if_neg (lt_irrefl (0 : ℚ)), if_pos hc]
  · intro hp hc
    rw [hp, hc, if_neg (lt_irrefl (0 : ℚ)), if_neg (lt_irrefl (0 : ℚ))]
  · intro hne hnng
    have hpp : 0 < (((last6Months today).map
        (trendForMonth_dashboard ts)).getD 4 mt0).income :=
      lt_of_le_of_ne hnng (Ne.symm hne)
    rw [if_pos hpp]
  · intro hp hc
    rw [hp, if_neg (lt_irrefl (0 : ℚ)), if_pos hc]
  · intro hp hc
    rw [hp, hc, if_neg (lt_irrefl (0 : ℚ)), if_neg (lt_irrefl (0 : ℚ))]
  · intro hne hnng
    have hpp : 0 < (((last6Months today).map
        (trendForMonth_dashboard ts)).getD 4 mt0).expense :=
      lt_of_le_of_ne hnng (Ne.symm hne)
    rw [if_pos hpp]
  · rw [hprev]
    exact hnn.1
  · rw [hprev]
    exact hnn.2
  · intro hp
    rw [hp, if_neg (lt_irrefl (0 : ℚ))]
  · intro hp
    rw [hp, if_neg (lt_irrefl (0 : ℚ))]

/-- C4 witness: the dashboard implementation's income-change rule at a
concrete singleton list. -/
theorem c4_witness :
    changeRule
        ((calculateSpendingTrends_dashboard ⟨2024, 6, 15⟩
          [sampleIncome]).previousMonth.getD mt0).income
        (calculateSpendingTrends_dashboard ⟨2024, 6, 15⟩
          [sampleIncome]).currentMonth.income
        (calculateSpendingTrends_dashboard ⟨2024, 6, 15⟩
          [sampleIncome]).incomeChange :=
  (c4_trends_change ⟨2024, 6, 15⟩ [sampleIncome]
    (by intro t ht; simp at ht; subst ht; decide)).1

/-- Civil date to days since the Unix epoch (Howard Hinnant's
`days_from_civil`, the standard proleptic-Gregorian conversion used by JS
dates); Lean's `Int` division truncates like the reference C++. -/
def daysFromCivil (dt : SimpleDate) : Int :=
  let y : Int := if dt.month ≤ 2 then (dt.year : Int) - 1 else (dt.year : Int)
  let era : Int := (if 0 ≤ y then y else y - 399) / 400
  let yoe : Int := y - era * 400
  let mp : Int := ((dt.month : Int) + 9) % 12
  let doy : Int := (153 * mp + 2) / 5 + (dt.day : Int) - 1
  let doe : Int := yoe * 365 + yoe / 4 - yoe / 100 + doy
  era * 146097 + doe - 719468

/-- Days since the Unix epoch back to a civil date (Hinnant's
`civil_from_days`). -/
def civilFromDays (z0 : Int) : SimpleDate :=
  let z := z0 + 719468
  let era : Int := (if 0 ≤ z then z else z - 146096) / 146097
  let doe : Int := z - era * 146097
  let yoe : Int := (doe - doe / 1460 + doe / 36524 - doe / 146096) / 365
  let y : Int := yoe + era * 400
  let doy : Int := doe - (365 * yoe + yoe / 4 - yoe / 100)
  let mp : Int := (5 * doy + 2) / 153
  let d : Int := doy - (153 * mp + 2) / 5 + 1
  let m : Int := if mp < 10 then mp + 3 else mp - 9
  let yy : Int := if m ≤ 2 then y + 1 else y
  ⟨yy.toNat, m.toNat, d.toNat⟩

/-- JS `Date` comparison, at the calendar-day granularity of the model. -/
def dateLt (a b : SimpleDate) : Bool :=
  daysFromCivil a < daysFromCivil b

/-- The day-number of a transaction date, 0 for an unparseable date; used
only to state ordering properties. -/
def dateNum : Option SimpleDate → Int
  | none => 0
  | some d => daysFromCivil d

/-- Day of week (0 = Sunday), from the epoch day number; 1970-01-01 was a
Thursday. -/
def dayOfWeek (d : SimpleDate) : Nat :=
  (((daysFromCivil d + 4) % 7 + 7) % 7).toNat

/-- `format(date, "EEEE")` for a valid date. -/
def weekdayName (d : SimpleDate) : String :=
  ["Sunday", "Monday", "Tuesday", "Wednesday", "Thursday", "Friday",
    "Saturday"].getD (dayOfWeek d) "Sunday"

def monthAbbrev (m : Nat) : String :=
  ["Jan", "Feb", "Mar", "Apr", "May", "Jun", "Jul", "Aug", "Sep", "Oct",
    "Nov", "Dec"].getD (m - 1) "Jan"

/-- `format(date, "MMM d, yyyy")` for a valid date. -/
def fmtLong (d : SimpleDate) : String :=
  monthAbbrev d.month ++ " " ++ natRepr d.day ++ ", " ++ natRepr d.year

/-- `format(date, "yyyy-MM-dd")` for a valid date. -/
def fmtYMD (d : SimpleDate) : String :=
  natRepr d.year ++ "-" ++ pad2 d.month ++ "-" ++ pad2 d.day

/-- `format(date, "MMM dd")` for a valid date. -/
def fmtMMMdd (d : SimpleDate) : String :=
  monthAbbrev d.month ++ " " ++ pad2 d.day

/-- JS `s || alt` for strings: the empty string is falsy. -/
def strOr (s alt : String) : String :=
  if s = "" then alt else s

/-- `s.toLowerCase()` (character-wise lowering, as `String.toLower` does,
written over the character list so that it reduces inside the kernel). -/
def strToLower (s : String) : String :=
  ⟨s.data.map Char.toLower⟩

/-- `s.trim()`: strip whitespace from both ends. -/
def strTrim (s : String) : String :=
  ⟨((s.data.dropWhile Char.isWhitespace).reverse.dropWhile
    Char.isWhitespace).reverse⟩

/-- `t.category || "Uncategorized"`. -/
def catOr (t : Transaction) : String :=
  (stringOrNull t.category).getD "Uncategorized"

/-- Stable insertion step for a descending sort: `x` goes in front of the
first element whose key is `≤` its own, so earlier input elements win
ties. This is the behaviour of the (stable) `Array.prototype.sort` with
comparator `(a, b) => key(b) - key(a)`. -/
def insertDescBy {α β : Type} [LinearOrder β] (key : α → β) (x : α) :
    List α → List α
  | [] => [x]
  | y :: ys =>
    if key y ≤ key x then x :: y :: ys else y :: insertDescBy key x ys

/-- Stable descending sort by `key`. -/
def sortDescBy {α β : Type} [LinearOrder β] (key : α → β) (l : List α) :
    List α :=
  l.foldr (insertDescBy key) []

/-- Occurrence-count bump on a string-keyed record, appending new keys in
insertion order. -/
def bumpCount (m : List (String × Nat)) (k : String) : List (String × Nat) :=
  match m with
  | [] => [(k, 1)]
  | (k0, v) :: rest =>
    if k0 = k then (k0, v + 1) :: rest else (k0, v) :: bumpCount rest k

/-- Amount accumulation on a string-keyed record (`categories[k] += a`,
creating the key at the end on first sight). -/
def addAmount (m : List (String × ℚ)) (k : String) (a : ℚ) :
    List (String × ℚ) :=
  match m with
  | [] => [(k, a)]
  | (k0, v) :: rest =>
    if k0 = k then (k0, v + a) :: rest else (k0, v) :: addAmount rest k a

/-- Total of a transaction list's amounts (a bare `reduce` sum). -/
def amountSum (l : List Transaction) : ℚ :=
  (l.map Transaction.amount).sum

inductive TypeFilter where
  | income
  | expense
  | all
  deriving DecidableEq, Repr

/-- The guard `type !== "all" && transaction.type !== type` (negated). -/
def typeMatches (f : TypeFilter) (t : Transaction) : Bool :=
  match f with
  | TypeFilter.all => true
  | TypeFilter.income => t.type == TxType.income
  | TypeFilter.expense => t.type == TxType.expense

/-- The accumulation loop shared by both `calculateTopCategories` copies:
a falsy category is skipped first, then the kind filter is applied, then
the amount is added under the key `K t`. -/
def groupFold (K : Transaction → Option String) (F : Transaction → Bool)
    (ts : List Transaction) (m : List (String × ℚ)) :
    List (String × ℚ) :=
  ts.foldl
    (fun m t =>
      match K t with
      | none => m
      | some c => if F t then addAmount m c t.amount else m)
    m

/-- The record key used by the reports-page copy: the raw category string
(no lower-casing there). -/
def catKey_reports (t : Transaction) : Option String :=
  stringOrNull t.category

/-- The record key used by the dashboard copy: the lower-cased category. -/
def catKey_dashboard (t : Transaction) : Option String :=
  (stringOrNull t.category).map strToLower

/-- `calculateTopCategories` from `app/reports/page.tsx` (lines 84–102):
a falsy category is skipped, the raw category string is the record key
(no lower-casing in this copy), sums are sorted descending (stably) and
the first five survive. -/
def calculateTopCategories_reports (ts : List Transaction)
    (f : TypeFilter) : List (String × ℚ) :=
  (sortDescBy (fun p => p.2)
    (groupFold catKey_reports (typeMatches f) ts [])).take 5

/-- `calculateTopCategories` from `components/dashboard-content.tsx`
(lines 79–98): identical except the key is the lower-cased category. -/
def calculateTopCategories_dashboard (ts : List Transaction)
    (f : TypeFilter) : List (String × ℚ) :=
  (sortDescBy (fun p => p.2)
    (groupFold catKey_dashboard (typeMatches f) ts [])).take 5

structure LargestInfo where
  amount : ℚ
  description : String
  date : String
  category : String
  deriving DecidableEq, Repr

def largest0 : LargestInfo := ⟨0, "", "", ""⟩

structure RecentTx where
  amount : ℚ
  description : String
  date : String
  type : TxType
  category : String
  deriving DecidableEq, Repr

structure TxStats where
  totalTransactions : Nat
  avgTransactionAmount : ℚ
  largestExpense : LargestInfo
  largestIncome : LargestInfo
  recentTransactions : List RecentTx
  frequentCategories : List (String × Nat)
  weekdayDistribution : List (String × Nat)
  daysSinceFirstTransaction : Int
  deriving DecidableEq, Repr

/-- The mutable locals of the `calculateTransactionStats` loop. -/
structure StatsLoopState where
  totalAmount : ℚ
  categoryCount : List (String × Nat)
  weekdayCount : List (String × Nat)
  oldestDate : SimpleDate
  largestExpense : LargestInfo
  largestIncome : LargestInfo
  deriving DecidableEq, Repr

def statsInit (today : SimpleDate) : StatsLoopState :=
  ⟨0, [], [], today, largest0, largest0⟩

/-- One iteration of the reports-page stats loop. The amount is added and
the category counted before the date is used, but on an unparseable date
`format(transactionDate, "EEEE")` (date-fns) throws a RangeError, which
aborts the whole call, so the partially updated locals are never
observable: the step maps an invalid date straight to the error. -/
def statsStep_reports (st : StatsLoopState) (t : Transaction) :
    Except String StatsLoopState :=
  match t.date with
  | none => Except.error "RangeError: Invalid time value"
  | some d =>
    Except.ok
      ⟨st.totalAmount + t.amount,
        (match stringOrNull t.category with
         | none => st.categoryCount
         | some c => bumpCount st.categoryCount c),
        bumpCount st.weekdayCount (weekdayName d),
        (if dateLt d st.oldestDate then d else st.oldestDate),
        (if t.type == TxType.expense && !t.is_credit &&
            decide (st.largestExpense.amount < t.amount) then
          ⟨t.amount, t.description, fmtLong d, catOr t⟩
        else st.largestExpense),
        (if t.type == TxType.income &&
            decide (st.largestIncome.amount < t.amount) then
          ⟨t.amount, t.description, fmtLong d, catOr t⟩
        else st.largestIncome)⟩

/-- The same step with an invalid date leaving the state unchanged; used
to relate the effectful fold to a pure fold on date-valid inputs. -/
def statsStep_reportsOk (st : StatsLoopState) (t : Transaction) :
    StatsLoopState :=
  match statsStep_reports st t with
  | Except.ok st' => st'
  | Except.error _ => st

/-- One iteration of the dashboard stats loop: the amount is added first,
then the `try`/`catch` around date parsing skips the remainder of the
iteration for an unparseable date; the category key is lower-cased, a
falsy description becomes "N/A", and neither largest-statistic excludes
credit entries. -/
def statsStep_dashboard (st : StatsLoopState) (t : Transaction) :
    StatsLoopState :=
  let withAmount := { st with totalAmount := st.totalAmount + t.amount }
  match t.date with
  | none => withAmount
  | some d =>
    ⟨withAmount.totalAmount,
      (match stringOrNull t.category with
       | none => st.categoryCount
       | some c => bumpCount st.categoryCount (strToLower c)),
      bumpCount st.weekdayCount (weekdayName d),
      (if dateLt d st.oldestDate then d else st.oldestDate),
      (if t.type == TxType.expense &&
          decide (st.largestExpense.amount < t.amount) then
        ⟨t.amount, strOr t.description "N/A", fmtLong d, catOr t⟩
      else st.largestExpense),
      (if t.type == TxType.income &&
          decide (st.largestIncome.amount < t.amount) then
        ⟨t.amount, strOr t.description "N/A", fmtLong d, catOr t⟩
      else st.largestIncome)⟩

/-- Top five most frequent categories, stably sorted by descending
count. -/
def topFreq (m : List (String × Nat)) : List (String × Nat) :=
  (sortDescBy (fun p => p.2) m).take 5

/-- The `recentTransactions` projection of the reports-page stats:
`format(new Date(t.date), "MMM d, yyyy")` throws on an invalid date. -/
def recentView_reports (t : Transaction) : Except String RecentTx :=
  match t.date with
  | none => Except.error "RangeError: Invalid time value"
  | some d => Except.ok ⟨t.amount, t.description, fmtLong d, t.type, catOr t⟩

/-- The `recentTransactions` projection of the dashboard stats, whose
`try`/`catch` turns an invalid date into the string "Invalid Date". -/
def recentView_dashboard (t : Transaction) : RecentTx :=
  match t.date with
  | none =>
    ⟨t.amount, strOr t.description "N/A", "Invalid Date", t.type, catOr t⟩
  | some d =>
    ⟨t.amount, strOr t.description "N/A", fmtLong d, t.type, catOr t⟩

/-- `calculateTransactionStats` from `app/reports/page.tsx`
(lines 171–257). The average is taken over the non-credit ("cash flow")
transactions only; the largest-expense statistic excludes credit entries
while the largest-income one does not; the five recent transactions are
`transactions.slice(0, 5)`. An unparseable date makes the whole call
throw (modelled by `Except.error`). -/
def calculateTransactionStats_reports (today : SimpleDate)
    (ts : List Transaction) : Except String TxStats :=
  if ts.isEmpty then
    Except.ok ⟨ts.length, 0, largest0, largest0, [], [], [], 0⟩
  else do
    let st ← ts.foldlM statsStep_reports (statsInit today)
    let recent ← (ts.take 5).mapM recentView_reports
    let cashFlowTransactions := ts.filter (fun t => !t.is_credit)
    let avg :=
      if 0 < cashFlowTransactions.length then
        amountSum cashFlowTransactions / (cashFlowTransactions.length : ℚ)
      else 0
    Except.ok
      ⟨ts.length, avg, st.largestExpense, st.largestIncome, recent,
        topFreq st.categoryCount, st.weekdayCount,
        daysFromCivil today - daysFromCivil st.oldestDate⟩

/-- `calculateTransactionStats` from `components/dashboard-content.tsx`
(lines 165–268). The average here is over *all* transactions and the
largest-expense statistic does *not* exclude credit entries; unparseable
dates are skipped (guarded by `try`/`catch` and an `isNaN` check), never
fatal. -/
def calculateTransactionStats_dashboard (today : SimpleDate)
    (ts : List Transaction) : TxStats :=
  if ts.isEmpty then ⟨ts.length, 0, largest0, largest0, [], [], [], 0⟩
  else
    let st := ts.foldl statsStep_dashboard (statsInit today)
    let recent := (ts.take 5).map recentView_dashboard
    let avg :=
      if 0 < ts.length then st.totalAmount / (ts.length : ℚ) else 0
    ⟨ts.length, avg, st.largestExpense, st.largestIncome, recent,
      topFreq st.categoryCount, st.weekdayCount,
      daysFromCivil today - daysFromCivil st.oldestDate⟩

/-- In-place bump of a pre-initialised daily bucket: the guard
`dailySpending[dateKey] !== undefined` means only existing keys are
updated (the 30 keys are distinct, so at most one entry matches). -/
def addIfPresent (m : List (String × ℚ)) (k : String) (a : ℚ) :
    List (String × ℚ) :=
  m.map (fun p => if p.1 = k then (p.1, p.2 + a) else p)

/-- `calculateDailySpending` from `app/reports/page.tsx` (lines 260–291):
non-credit expenses of the last 30 days, bucketed per day (days
initialised to zero newest-first), then formatted and reversed to
chronological order. `parseISO` inverts the `yyyy-MM-dd` key, so the final
labels are computed from the bucket dates directly. -/
def calculateDailySpending_reports (today : SimpleDate)
    (ts : List Transaction) : List (String × ℚ) :=
  let todayN := daysFromCivil today
  let thirtyDaysAgo := todayN - 30
  let recentTransactions := ts.filter (fun t =>
    match t.date with
    | none => false
    | some d =>
      decide (thirtyDaysAgo ≤ daysFromCivil d) &&
        t.type == TxType.expense && !t.is_credit)
  let days := (List.range 30).map (fun i => civilFromDays (todayN - i))
  let init : List (String × ℚ) := days.map (fun d => (fmtYMD d, 0))
  let filled := recentTransactions.foldl
    (fun m t =>
      match t.date with
      | none => m
      | some d => addIfPresent m (fmtYMD d) t.amount)
    init
  ((days.zip (filled.map Prod.snd)).map
    (fun p => (fmtMMMdd p.1, p.2))).reverse

structure RecurringInfo where
  description : String
  frequency : String
  avgAmount : ℚ
  category : String
  occurrences : Nat
  deriving DecidableEq, Repr

/-- Grouping step: push `t` onto the bucket of key `k`, creating the
bucket at the end on first sight. -/
def addGroup (m : List (String × List Transaction)) (k : String)
    (t : Transaction) : List (String × List Transaction) :=
  match m with
  | [] => [(k, [t])]
  | (k0, v) :: rest =>
    if k0 = k then (k0, v ++ [t]) :: rest else (k0, v) :: addGroup rest k t

/-- `calculateRecurringExpenses` from `app/reports/page.tsx`
(lines 294–330): group non-credit expenses by lower-cased trimmed
description, keep groups of three or more, average their amounts, label a
coarse frequency, sort by descending average and keep ten. -/
def calculateRecurringExpenses_reports (ts : List Transaction) :
    List RecurringInfo :=
  let expensesByDescription :=
    (ts.filter (fun t => t.type == TxType.expense && !t.is_credit)).foldl
      (fun m t => addGroup m (strTrim (strToLower t.description)) t) []
  let recurring :=
    (expensesByDescription.filter (fun p => 3 ≤ p.2.length)).map
      (fun p =>
        let amounts := p.2.map Transaction.amount
        let avgAmount := amounts.sum / (amounts.length : ℚ)
        let category :=
          match p.2.head? with
          | some t => catOr t
          | none => "Uncategorized"
        let frequency :=
          if 12 ≤ p.2.length then "Monthly"
          else if 4 ≤ p.2.length then "Quarterly"
          else "Occasional"
        (⟨p.1, frequency, avgAmount, category, p.2.length⟩ : RecurringInfo))
  (sortDescBy (fun r => r.avgAmount) recurring).take 10

/-- A transaction whose stored `date` string does not parse
(`new Date(...)` yields an Invalid Date). -/
def badDateTx : Transaction :=
  { id := "tx-bad"
    user_id := "user-1"
    amount := 10
    description := "mystery"
    date := none
    type := TxType.expense
    category := some "misc"
    notes := none
    is_credit := false
    installments := none
    original_amount := none
    remaining_installments := none }

/-- C5. Every aggregation returns an empty/zero result on the empty list,
and the dashboard statistics skip a record with an unparseable date while
still processing the rest — but the reports-page `calculateTransactionStats`
calls date-fns `format` on the Invalid Date with no guard, which throws a
RangeError and aborts the whole computation, contradicting the claim (and
the spec's never-throw requirement); the dashboard copy's `try`/`catch`
and `isNaN` guard show the intended behaviour. -/
theorem c5_reports_stats_throws :
    calculateTransactionStats_reports ⟨2024, 6, 15⟩
        [badDateTx, sampleExpense] =
      Except.error "RangeError: Invalid time value" ∧
    (calculateTransactionStats_dashboard ⟨2024, 6, 15⟩
        [badDateTx, sampleExpense]).totalTransactions = 2 ∧
    (calculateTransactionStats_dashboard ⟨2024, 6, 15⟩
        [badDateTx, sampleExpense]).largestExpense.amount = 1000 ∧
    calculateMonthlyData_reports [] = [] ∧
    calculateMonthlyData_dashboard [] = [] ∧
    calculateTopCategories_reports [] TypeFilter.all = [] ∧
    calculateTopCategories_dashboard [] TypeFilter.all = [] ∧
    (calculateSpendingTrends_reports ⟨2024, 6, 15⟩
        []).monthlyTotals.map MonthTrend.income = [0, 0, 0, 0, 0, 0] ∧
    (calculateSpendingTrends_dashboard ⟨2024, 6, 15⟩
        []).monthlyTotals.map MonthTrend.expense = [0, 0, 0, 0, 0, 0] ∧
    calculateTransactionStats_reports ⟨2024, 6, 15⟩ [] =
      Except.ok ⟨0, 0, largest0, largest0, [], [], [], 0⟩ ∧
    calculateTransactionStats_dashboard ⟨2024, 6, 15⟩ [] =
      ⟨0, 0, largest0, largest0, [], [], [], 0⟩ ∧
    (calculateDailySpending_reports ⟨2024, 6, 15⟩ []).length = 30 ∧
    (calculateDailySpending_reports ⟨2024, 6, 15⟩ []).all
      (fun p => p.2 == 0) = true ∧
    calculateRecurringExpenses_reports [] = [] := by
  refine ⟨by rfl, by decide, by decide, by decide, by decide, by decide,
    by decide, by decide, by decide, by rfl, by decide, by decide,
    by decide, by decide⟩

/-- The pure image of `recentView_reports` on a date-valid transaction. -/
def recentViewOk (t : Transaction) : RecentTx :=
  match t.date with
  | none => ⟨t.amount, t.description, "", t.type, catOr t⟩
  | some d => ⟨t.amount, t.description, fmtLong d, t.type, catOr t⟩

theorem statsStep_reports_ok_of_valid (st : StatsLoopState)
    (t : Transaction) (h : t.date.isSome) :
    statsStep_reports st t = Except.ok (statsStep_reportsOk st t) := by
  cases hd : t.date with
  | none => rw [hd] at h; simp at h
  | some d => simp [statsStep_reports, statsStep_reportsOk, hd]

theorem foldlM_reports_eq (ts : List Transaction) (st : StatsLoopState)
    (h : ∀ t ∈ ts, t.date.isSome) :
    ts.foldlM statsStep_reports st =
      Except.ok (ts.foldl statsStep_reportsOk st) := by
  induction ts generalizing st with
  | nil => rfl
  | cons t rest ih =>
    rw [List.foldlM_cons,
      statsStep_reports_ok_of_valid st t (h t (List.mem_cons_self t rest))]
    exact ih (statsStep_reportsOk st t)
      (fun u hu => h u (List.mem_cons_of_mem t hu))

theorem mapM_recent_eq (l : List Transaction)
    (h : ∀ t ∈ l, t.date.isSome) :
    l.mapM recentView_reports = Except.ok (l.map recentViewOk) := by
  induction l with
  | nil => rfl
  | cons t rest ih =>
    have ht : t.date.isSome := h t (List.mem_cons_self t rest)
    have hv : recentView_reports t = Except.ok (recentViewOk t) := by
      cases hd : t.date with
      | none => rw [hd] at ht; simp at ht
      | some d => simp [recentView_reports, recentViewOk, hd]
    rw [List.mapM_cons, hv,
      ih (fun u hu => h u (List.mem_cons_of_mem t hu))]
    rfl

/-- The reports-page statistics as a pure function, defined on inputs all
of whose dates parse. -/
def calculateTransactionStatsPure_reports (today : SimpleDate)
    (ts : List Transaction) : TxStats :=
  if ts.isEmpty then ⟨ts.length, 0, largest0, largest0, [], [], [], 0⟩
  else
    let st := ts.foldl statsStep_reportsOk (statsInit today)
    let recent := (ts.take 5).map recentViewOk
    let cashFlowTransactions := ts.filter (fun t => !t.is_credit)
    let avg :=
      if 0 < cashFlowTransactions.length then
        amountSum cashFlowTransactions / (cashFlowTransactions.length : ℚ)
      else 0
    ⟨ts.length, avg, st.largestExpense, st.largestIncome, recent,
      topFreq st.categoryCount, st.weekdayCount,
      daysFromCivil today - daysFromCivil st.oldestDate⟩

theorem reports_stats_eq_pure (today : SimpleDate) (ts : List Transaction)
    (h : ∀ t ∈ ts, t.date.isSome) :
    calculateTransactionStats_reports today ts =
      Except.ok (calculateTransactionStatsPure_reports today ts) := by
  by_cases hemp : ts.isEmpty
  · simp [calculateTransactionStats_reports,
      calculateTransactionStatsPure_reports, hemp]
  · rw [calculateTransactionStats_reports,
      calculateTransactionStatsPure_reports, if_neg hemp, if_neg hemp]
    rw [show (do
        let st ← ts.foldlM statsStep_reports (statsInit today)
        let recent ← (ts.take 5).mapM recentView_reports
        let cashFlowTransactions := ts.filter (fun t => !t.is_credit)
        let avg :=
          if 0 < cashFlowTransactions.length then
            amountSum cashFlowTransactions /
              (cashFlowTransactions.length : ℚ)
          else 0
        Except.ok
          ⟨ts.length, avg, st.largestExpense, st.largestIncome, recent,
            topFreq st.categoryCount, st.weekdayCount,
            daysFromCivil today - daysFromCivil st.oldestDate⟩ :
        Except String TxStats) =
      (ts.foldlM statsStep_reports (statsInit today) >>= fun st =>
        (ts.take 5).mapM recentView_reports >>= fun recent =>
        Except.ok
          ⟨ts.length,
            (if 0 < (ts.filter (fun t => !t.is_credit)).length then
              amountSum (ts.filter (fun t => !t.is_credit)) /
                ((ts.filter (fun t => !t.is_credit)).length : ℚ)
            else 0),
            st.largestExpense, st.largestIncome, recent,
            topFreq st.categoryCount, st.weekdayCount,
            daysFromCivil today - daysFromCivil st.oldestDate⟩) from rfl]
    rw [foldlM_reports_eq ts (statsInit today) h,
      mapM_recent_eq (ts.take 5)
        (fun u hu => h u (List.mem_of_mem_take hu))]
    rfl

theorem max_of_if (c a : ℚ) : (if c < a then a else c) = max c a := by
  by_cases h : c < a
  · simp [h, max_eq_right h.le]
  · simp [h, max_eq_left (not_lt.mp h)]

/-- Running-maximum characterisation of a "largest so-far" loop field: if
each step replaces the field's amount exactly when the predicate holds and
the new amount is strictly larger, the fold computes the `max`-fold over
the filtered amounts. -/
theorem foldl_largest_general
    (S : StatsLoopState → Transaction → StatsLoopState)
    (E : StatsLoopState → ℚ) (P : Transaction → Bool)
    (hstep : ∀ st t, t.date.isSome →
      E (S st t) =
        if P t && decide (E st < t.amount) then t.amount else E st) :
    ∀ (ts : List Transaction) (st : StatsLoopState),
      (∀ t ∈ ts, t.date.isSome) →
      E (ts.foldl S st) =
        ((ts.filter P).map Transaction.amount).foldl max (E st) := by
  intro ts
  induction ts with
  | nil => intro st _; rfl
  | cons t rest ih =>
    intro st h
    rw [List.foldl_cons, ih (S st t)
      (fun u hu => h u (List.mem_cons_of_mem t hu))]
    rw [hstep st t (h t (List.mem_cons_self t rest))]
    by_cases hp : P t = true
    · rw [List.filter_cons, if_pos hp, List.map_cons, List.foldl_cons]
      congr 1
      simp only [hp, Bool.true_and]
      by_cases hlt : E st < t.amount
      · simp [hlt, max_eq_right hlt.le]
      · simp [hlt, max_eq_left (not_lt.mp hlt)]
    · rw [List.filter_cons, if_neg hp]
      simp [hp]

theorem largestExpense_step_reports (st : StatsLoopState) (t : Transaction)
    (h : t.date.isSome) :
    (statsStep_reportsOk st t).largestExpense.amount =
      if (t.type == TxType.expense && !t.is_credit) &&
          decide (st.largestExpense.amount < t.amount) then t.amount
      else st.largestExpense.amount := by
  cases hd : t.date with
  | none => rw [hd] at h; simp at h
  | some d =>
    simp only [statsStep_reportsOk, statsStep_reports, hd]
    by_cases h1 : t.type == TxType.expense <;>
      by_cases h2 : t.is_credit <;>
      by_cases h3 : st.largestExpense.amount < t.amount <;>
        simp [h1, h2, h3]

theorem largestIncome_step_reports (st : StatsLoopState) (t : Transaction)
    (h : t.date.isSome) :
    (statsStep_reportsOk st t).largestIncome.amount =
      if (t.type == TxType.income) &&
          decide (st.largestIncome.amount < t.amount) then t.amount
      else st.largestIncome.amount := by
  cases hd : t.date with
  | none => rw [hd] at h; simp at h
  | some d =>
    simp only [statsStep_reportsOk, statsStep_reports, hd]
    by_cases h1 : t.type == TxType.income <;>
      by_cases h3 : st.largestIncome.amount < t.amount <;>
        simp [h1, h3]

theorem largestExpense_step_dashboard (st : StatsLoopState)
    (t : Transaction) (h : t.date.isSome) :
    (statsStep_dashboard st t).largestExpense.amount =
      if (t.type == TxType.expense) &&
          decide (st.largestExpense.amount < t.amount) then t.amount
      else st.largestExpense.amount := by
  cases hd : t.date with
  | none => rw [hd] at h; simp at h
  | some d =>
    simp only [statsStep_dashboard, hd]
    by_cases h1 : t.type == TxType.expense <;>
      by_cases h3 : st.largestExpense.amount < t.amount <;>
        simp [h1, h3]

theorem totalAmount_fold_dashboard (ts : List Transaction)
    (st : StatsLoopState) :
    (ts.foldl statsStep_dashboard st).totalAmount =
      st.totalAmount + amountSum ts := by
  induction ts generalizing st with
  | nil => simp [amountSum]
  | cons t rest ih =>
    have hstep : (statsStep_dashboard st t).totalAmount =
        st.totalAmount + t.amount := by
      cases hd : t.date <;> simp [statsStep_dashboard, hd]
    rw [List.foldl_cons, ih, hstep]
    simp [amountSum]
    ring

/-- Evaluation of the dashboard statistics on a non-empty list. -/
theorem dashboard_stats_eq (today : SimpleDate) (ts : List Transaction)
    (h : ts ≠ []) :
    calculateTransactionStats_dashboard today ts =
      ⟨ts.length,
        (if 0 < ts.length then
          (ts.foldl statsStep_dashboard (statsInit today)).totalAmount /
            (ts.length : ℚ)
        else 0),
        (ts.foldl statsStep_dashboard (statsInit today)).largestExpense,
        (ts.foldl statsStep_dashboard (statsInit today)).largestIncome,
        (ts.take 5).map recentView_dashboard,
        topFreq
          (ts.foldl statsStep_dashboard (statsInit today)).categoryCount,
        (ts.foldl statsStep_dashboard (statsInit today)).weekdayCount,
        daysFromCivil today -
          daysFromCivil
            (ts.foldl statsStep_dashboard (statsInit today)).oldestDate⟩ := by
  rw [calculateTransactionStats_dashboard, if_neg (by simpa using h)]

/-- A small plain expense used in the statistics counterexample. -/
def smallExpense50 : Transaction :=
  { id := "tx-s"
    user_id := "user-1"
    amount := 50
    description := "Groceries"
    date := some ⟨2024, 1, 20⟩
    type := TxType.expense
    category := some "food"
    notes := none
    is_credit := false
    installments := none
    original_amount := none
    remaining_installments := none }

/-- C6 (counterexample). On a list holding a 100 credit-purchase entry and
a 50 plain expense, the dashboard statistics average over *all*
transactions (75, not the non-credit 50) and report the credit entry as
the largest expense (100, not 50) — both contradicting the claim. -/
theorem c6_counterexample :
    (calculateTransactionStats_dashboard ⟨2024, 6, 15⟩
        [creditTx100, smallExpense50]).avgTransactionAmount = 75 ∧
      amountSum ([creditTx100, smallExpense50].filter
          (fun t => !t.is_credit)) /
        (([creditTx100, smallExpense50].filter
          (fun t => !t.is_credit)).length : ℚ) = 50 ∧
      (75 : ℚ) ≠ 50 ∧
      (calculateTransactionStats_dashboard ⟨2024, 6, 15⟩
        [creditTx100, smallExpense50]).largestExpense.amount = 100 ∧
      ((([creditTx100, smallExpense50].filter
          (fun t => t.type == TxType.expense && !t.is_credit)).map
          Transaction.amount).foldl max 0) = 50 ∧
      (100 : ℚ) ≠ 50 := by
  have hne : ([creditTx100, smallExpense50] : List Transaction) ≠ [] := by
    simp
  refine ⟨?_, ?_, by norm_num, ?_, ?_, by norm_num⟩
  · rw [dashboard_stats_eq _ _ hne]
    simp only [totalAmount_fold_dashboard]
    have hs : amountSum [creditTx100, smallExpense50] = 150 := by
      norm_num [amountSum, creditTx100, smallExpense50]
    rw [hs]
    norm_num [statsInit]
  · have hf : [creditTx100, smallExpense50].filter
        (fun t => !t.is_credit) = [smallExpense50] := by decide
    rw [hf]
    have hs : amountSum [smallExpense50] = 50 := by
      norm_num [amountSum, smallExpense50]
    rw [hs]
    norm_num
  · rw [dashboard_stats_eq _ _ hne]
    decide
  · have hf : [creditTx100, smallExpense50].filter
        (fun t => t.type == TxType.expense && !t.is_credit) =
        [smallExpense50] := by decide
    rw [hf]
    decide

/-- C6 (amended). On date-valid inputs, the reports-page statistics
compute the average only over non-credit (cash-flow) transactions, and
their largest single expense is the running maximum over non-credit
expense amounts while the largest income is taken over all income rows
(credit entries excluded from the former only). The dashboard copy
instead averages over all transactions and includes credit entries in the
largest-expense statistic. -/
theorem c6_stats_credit_handling (today : SimpleDate)
    (ts : List Transaction) (hdates : ∀ t ∈ ts, t.date.isSome) :
    ∃ s : TxStats,
      calculateTransactionStats_reports today ts = Except.ok s ∧
      s.avgTransactionAmount =
        (if 0 < (ts.filter (fun t => !t.is_credit)).length then
          amountSum (ts.filter (fun t => !t.is_credit)) /
            ((ts.filter (fun t => !t.is_credit)).length : ℚ)
        else 0) ∧
      s.largestExpense.amount =
        ((ts.filter (fun t => t.type == TxType.expense &&
          !t.is_credit)).map Transaction.amount).foldl max 0 ∧
      s.largestIncome.amount =
        ((ts.filter (fun t => t.type == TxType.income)).map
          Transaction.amount).foldl max 0 ∧
      (calculateTransactionStats_dashboard today ts).avgTransactionAmount =
        (if 0 < ts.length then amountSum ts / (ts.length : ℚ) else 0) ∧
      (calculateTransactionStats_dashboard today ts).largestExpense.amount =
        ((ts.filter (fun t => t.type == TxType.expense)).map
          Transaction.amount).foldl max 0 := by
  by_cases hemp : ts.isEmpty
  · have hnil : ts = [] := by
      cases ts with
      | nil => rfl
      | cons a l => simp [List.isEmpty] at hemp
    subst hnil
    exact ⟨⟨0, 0, largest0, largest0, [], [], [], 0⟩, rfl, by simp,
      by simp [largest0], by simp [largest0],
      by simp [calculateTransactionStats_dashboard],
      by simp [calculateTransactionStats_dashboard, largest0]⟩
  · have hemp' : ts.isEmpty = false := by simpa using hemp
    have hne : ts ≠ [] := by
      intro h
      rw [h] at hemp'
      simp at hemp'
    refine ⟨calculateTransactionStatsPure_reports today ts,
      reports_stats_eq_pure today ts hdates, ?_, ?_, ?_, ?_, ?_⟩
    · simp [calculateTransactionStatsPure_reports, hemp']
    · simp only [calculateTransactionStatsPure_reports, hemp',
        Bool.false_eq_true, if_false]
      have := foldl_largest_general statsStep_reportsOk
        (fun st => st.largestExpense.amount)
        (fun t => t.type == TxType.expense && !t.is_credit)
        largestExpense_step_reports ts (statsInit today) hdates
      simpa [statsInit, largest0] using this
    · simp only [calculateTransactionStatsPure_reports, hemp',
        Bool.false_eq_true, if_false]
      have := foldl_largest_general statsStep_reportsOk
        (fun st => st.largestIncome.amount)
        (fun t => t.type == TxType.income)
        largestIncome_step_reports ts (statsInit today) hdates
      simpa [statsInit, largest0] using this
    · rw [dashboard_stats_eq today ts hne]
      simp only [totalAmount_fold_dashboard, statsInit]
      simp
    · rw [dashboard_stats_eq today ts hne]
      have := foldl_largest_general statsStep_dashboard
        (fun st => st.largestExpense.amount)
        (fun t => t.type == TxType.expense)
        largestExpense_step_dashboard ts (statsInit today) hdates
      simpa [statsInit, largest0] using this

/-- C6 witness at a concrete singleton list. -/
theorem c6_witness :
    ∃ s : TxStats,
      calculateTransactionStats_reports ⟨2024, 6, 15⟩ [smallExpense50] =
        Except.ok s ∧
      s.avgTransactionAmount =
        (if 0 < ([smallExpense50].filter (fun t => !t.is_credit)).length then
          amountSum ([smallExpense50].filter (fun t => !t.is_credit)) /
            (([smallExpense50].filter (fun t => !t.is_credit)).length : ℚ)
        else 0) ∧
      s.largestExpense.amount =
        (([smallExpense50].filter (fun t => t.type == TxType.expense &&
          !t.is_credit)).map Transaction.amount).foldl max 0 ∧
      s.largestIncome.amount =
        (([smallExpense50].filter (fun t => t.type == TxType.income)).map
          Transaction.amount).foldl max 0 ∧
      (calculateTransactionStats_dashboard ⟨2024, 6, 15⟩
        [smallExpense50]).avgTransactionAmount =
        (if 0 < ([smallExpense50] : List Transaction).length then
          amountSum [smallExpense50] /
            (([smallExpense50] : List Transaction).length : ℚ)
        else 0) ∧
      (calculateTransactionStats_dashboard ⟨2024, 6, 15⟩
        [smallExpense50]).largestExpense.amount =
        (([smallExpense50].filter (fun t => t.type == TxType.expense)).map
          Transaction.amount).foldl max 0 :=
  c6_stats_credit_handling ⟨2024, 6, 15⟩ [smallExpense50] (by decide)

/-- Sorted by date, newest first (at the day granularity of the model). -/
def sortedByDateDesc (ts : List Transaction) : Prop :=
  List.Pairwise (fun a b => dateNum b.date ≤ dateNum a.date) ts

/-- A transaction dated near the end of the year, later than the other
sample dates. -/
def lateTx : Transaction :=
  { id := "tx-late"
    user_id := "user-1"
    amount := 5
    description := "NYE"
    date := some ⟨2024, 12, 31⟩
    type := TxType.expense
    category := some "party"
    notes := none
    is_credit := false
    installments := none
    original_amount := none
    remaining_installments := none }

/-- C10. The "recent transactions" field is the positional slice
`transactions.slice(0, 5)` (projected to the view record); when the input
is sorted by date descending, every transaction beyond the slice is dated
no later than every one inside it; and there exists an unsorted input
(five January rows followed by a December one) whose positional slice
misses the latest-dated transaction. -/
theorem c10_recent_positional (today : SimpleDate)
    (ts : List Transaction) :
    (calculateTransactionStats_dashboard today ts).recentTransactions =
      (ts.take 5).map recentView_dashboard ∧
    (sortedByDateDesc ts →
      ∀ t ∈ ts.drop 5, ∀ r ∈ ts.take 5,
        dateNum t.date ≤ dateNum r.date) ∧
    (∃ ts' : List Transaction, ∃ t ∈ ts'.drop 5,
      ∀ r ∈ ts'.take 5, dateNum r.date < dateNum t.date) := by
  refine ⟨?_, ?_, ?_⟩
  · by_cases hemp : ts.isEmpty
    · have hnil : ts = [] := by
        cases ts with
        | nil => rfl
        | cons a l => simp [List.isEmpty] at hemp
      subst hnil
      rfl
    · have hne : ts ≠ [] := by
        intro h
        rw [h] at hemp
        simp at hemp
      rw [dashboard_stats_eq today ts hne]
  · intro hs
    rw [← List.take_append_drop 5 ts] at hs
    obtain ⟨-, -, hcross⟩ := List.pairwise_append.mp hs
    intro t ht r hr
    exact hcross r hr t ht
  · exact ⟨[smallExpense50, smallExpense50, smallExpense50, smallExpense50,
      smallExpense50, lateTx], lateTx, by decide, by decide⟩

/-- C10 witness: the positional-slice equation and the sorted-input
consequence at a concrete two-element list. -/
theorem c10_witness :
    (calculateTransactionStats_dashboard ⟨2024, 6, 15⟩
        [lateTx, smallExpense50]).recentTransactions =
      ([lateTx, smallExpense50].take 5).map recentView_dashboard ∧
      (∀ t ∈ ([lateTx, smallExpense50] : List Transaction).drop 5,
        ∀ r ∈ ([lateTx, smallExpense50] : List Transaction).take 5,
          dateNum t.date ≤ dateNum r.date) :=
  ⟨(c10_recent_positional ⟨2024, 6, 15⟩ [lateTx, smallExpense50]).1,
    (c10_recent_positional ⟨2024, 6, 15⟩ [lateTx, smallExpense50]).2.1
      (by
        refine List.Pairwise.cons ?_ (List.pairwise_singleton _ _)
        intro b hb
        have hb' : b = smallExpense50 := by simpa using hb
        subst hb'
        decide)⟩

theorem insertDescBy_mem {α β : Type} [LinearOrder β] (key : α → β)
    (x c : α) : ∀ l : List α,
      (c ∈ insertDescBy key x l ↔ c = x ∨ c ∈ l) := by
  intro l
  induction l with
  | nil => simp [insertDescBy]
  | cons y ys ih =>
    rw [insertDescBy]
    by_cases hle : key y ≤ key x
    · rw [if_pos hle]
      simp
    · rw [if_neg hle]
      simp only [List.mem_cons, ih]
      tauto

theorem sortDescBy_mem {α β : Type} [LinearOrder β] (key : α → β)
    (c : α) : ∀ l : List α, (c ∈ sortDescBy key l ↔ c ∈ l) := by
  intro l
  induction l with
  | nil => simp [sortDescBy]
  | cons y ys ih =>
    show c ∈ insertDescBy key y (sortDescBy key ys) ↔ _
    rw [insertDescBy_mem, ih]
    simp

theorem insertDescBy_pairwise {α β : Type} [LinearOrder β] (key : α → β)
    (x : α) : ∀ l : List α,
      List.Pairwise (fun a b => key b ≤ key a) l →
      List.Pairwise (fun a b => key b ≤ key a) (insertDescBy key x l) := by
  intro l
  induction l with
  | nil =>
    intro _
    simp [insertDescBy]
  | cons y ys ih =>
    intro hp
    rw [List.pairwise_cons] at hp
    obtain ⟨hy, hys⟩ := hp
    rw [insertDescBy]
    by_cases hle : key y ≤ key x
    · rw [if_pos hle]
      refine List.pairwise_cons.mpr ⟨?_, List.pairwise_cons.mpr ⟨hy, hys⟩⟩
      intro z hz
      rcases List.mem_cons.mp hz with rfl | hz'
      · exact hle
      · exact le_trans (hy z hz') hle
    · rw [if_neg hle]
      refine List.pairwise_cons.mpr ⟨?_, ih hys⟩
      intro z hz
      rcases (insertDescBy_mem key x z ys).mp hz with rfl | hz'
      · exact le_of_lt (not_le.mp hle)
      · exact hy z hz'

theorem sortDescBy_pairwise {α β : Type} [LinearOrder β] (key : α → β) :
    ∀ l : List α,
      List.Pairwise (fun a b => key b ≤ key a) (sortDescBy key l) := by
  intro l
  induction l with
  | nil => simp [sortDescBy]
  | cons y ys ih => exact insertDescBy_pairwise key y _ ih

theorem insertDescBy_pair_cases {α β : Type} [LinearOrder β] (key : α → β)
    (x a b : α) : ∀ l : List α,
      [a, b].Sublist (insertDescBy key x l) →
      (a = x ∧ b ∈ l) ∨ (b = x ∧ a ∈ l ∧ key x < key a) ∨
        [a, b].Sublist l := by
  intro l
  induction l with
  | nil =>
    intro h
    have hlen := h.length_le
    simp [insertDescBy] at hlen
  | cons y ys ih =>
    intro h
    rw [insertDescBy] at h
    by_cases hle : key y ≤ key x
    · rw [if_pos hle] at h
      cases h with
      | cons _ h' => exact Or.inr (Or.inr h')
      | cons₂ _ h' => exact Or.inl ⟨rfl, List.singleton_sublist.mp h'⟩
    · rw [if_neg hle] at h
      cases h with
      | cons _ h' =>
        rcases ih h' with ⟨ha, hb⟩ | ⟨hb, ha, hlt⟩ | hsub
        · exact Or.inl ⟨ha, List.mem_cons_of_mem y hb⟩
        · exact Or.inr (Or.inl ⟨hb, List.mem_cons_of_mem y ha, hlt⟩)
        · exact Or.inr (Or.inr (hsub.cons y))
      | cons₂ _ h' =>
        have hmem := List.singleton_sublist.mp h'
        rcases (insertDescBy_mem key x b ys).mp hmem with rfl | hbys
        · exact Or.inr (Or.inl ⟨rfl, List.mem_cons_self _ _,
            not_le.mp hle⟩)
        · exact Or.inr (Or.inr
            (List.Sublist.cons₂ _ (List.singleton_sublist.mpr hbys)))

/-- Stability of the descending sort: a tied pair of the output appears in
the same relative order in the input. -/
theorem sortDescBy_stable {α β : Type} [LinearOrder β] (key : α → β) :
    ∀ (l : List α) (a b : α), [a, b].Sublist (sortDescBy key l) →
      key a = key b → [a, b].Sublist l := by
  intro l
  induction l with
  | nil =>
    intro a b h _
    simp [sortDescBy] at h
  | cons x xs ih =>
    intro a b h hk
    have h' : [a, b].Sublist (insertDescBy key x (sortDescBy key xs)) := h
    rcases insertDescBy_pair_cases key x a b (sortDescBy key xs) h' with
      ⟨rfl, hb⟩ | ⟨rfl, ha, hlt⟩ | hsub
    · have hbl : b ∈ xs := (sortDescBy_mem key b xs).mp hb
      exact List.Sublist.cons₂ _ (List.singleton_sublist.mpr hbl)
    · rw [hk] at hlt
      exact absurd hlt (lt_irrefl _)
    · exact (ih a b hsub hk).cons x

def keysOf (m : List (String × ℚ)) : List String :=
  m.map Prod.fst

theorem keys_addAmount (k k' : String) (a : ℚ) :
    ∀ m : List (String × ℚ),
      (k' ∈ keysOf (addAmount m k a) ↔ k' ∈ keysOf m ∨ k' = k) := by
  intro m
  induction m with
  | nil => simp [addAmount, keysOf]
  | cons p rest ih =>
    obtain ⟨k0, v⟩ := p
    by_cases h0 : k0 = k
    · subst h0
      have he : addAmount ((k0, v) :: rest) k0 a = (k0, v + a) :: rest := by
        rw [addAmount, if_pos rfl]
      rw [he]
      simp only [keysOf, List.map_cons, List.mem_cons]
      tauto
    · have he : addAmount ((k0, v) :: rest) k a =
          (k0, v) :: addAmount rest k a := by
        rw [addAmount, if_neg h0]
      rw [he]
      simp only [keysOf, List.map_cons, List.mem_cons]
      simp only [keysOf] at ih
      rw [ih]
      tauto

theorem nodup_keys_addAmount (k : String) (a : ℚ) :
    ∀ m : List (String × ℚ), (keysOf m).Nodup →
      (keysOf (addAmount m k a)).Nodup := by
  intro m
  induction m with
  | nil =>
    intro _
    simp [addAmount, keysOf]
  | cons p rest ih =>
    obtain ⟨k0, v⟩ := p
    intro hnd
    simp only [keysOf, List.map_cons, List.nodup_cons] at hnd
    obtain ⟨hk0, hrest⟩ := hnd
    rw [addAmount]
    by_cases h0 : k0 = k
    · subst h0
      rw [if_pos rfl]
      simp only [keysOf, List.map_cons, List.nodup_cons]
      exact ⟨hk0, hrest⟩
    · rw [if_neg h0]
      simp only [keysOf, List.map_cons, List.nodup_cons]
      refine ⟨?_, ih hrest⟩
      intro hc
      rcases (keys_addAmount k k0 a rest).mp hc with h | h
      · exact hk0 h
      · exact h0 h

theorem groupFold_cons_none {K : Transaction → Option String}
    {F : Transaction → Bool} {t : Transaction} (rest : List Transaction)
    (m : List (String × ℚ)) (hK : K t = none) :
    groupFold K F (t :: rest) m = groupFold K F rest m := by
  have h0 : groupFold K F (t :: rest) m =
      groupFold K F rest
        (match K t with
         | none => m
         | some c => if F t then addAmount m c t.amount else m) := rfl
  rw [h0, hK]

theorem groupFold_cons_some_pos {K : Transaction → Option String}
    {F : Transaction → Bool} {t : Transaction} {c : String}
    (rest : List Transaction) (m : List (String × ℚ))
    (hK : K t = some c) (hF : F t = true) :
    groupFold K F (t :: rest) m =
      groupFold K F rest (addAmount m c t.amount) := by
  have h0 : groupFold K F (t :: rest) m =
      groupFold K F rest
        (match K t with
         | none => m
         | some c => if F t then addAmount m c t.amount else m) := rfl
  rw [h0, hK]
  simp [hF]

theorem groupFold_cons_some_neg {K : Transaction → Option String}
    {F : Transaction → Bool} {t : Transaction} {c : String}
    (rest : List Transaction) (m : List (String × ℚ))
    (hK : K t = some c) (hF : F t = false) :
    groupFold K F (t :: rest) m = groupFold K F rest m := by
  have h0 : groupFold K F (t :: rest) m =
      groupFold K F rest
        (match K t with
         | none => m
         | some c => if F t then addAmount m c t.amount else m) := rfl
  rw [h0, hK]
  simp [hF]

theorem nodup_keys_groupFold (K : Transaction → Option String)
    (F : Transaction → Bool) :
    ∀ (ts : List Transaction) (m : List (String × ℚ)),
      (keysOf m).Nodup → (keysOf (groupFold K F ts m)).Nodup := by
  intro ts
  induction ts with
  | nil => intro m h; exact h
  | cons t rest ih =>
    intro m h
    cases hK : K t with
    | none =>
      rw [groupFold_cons_none rest m hK]
      exact ih m h
    | some c =>
      cases hF : F t with
      | true =>
        rw [groupFold_cons_some_pos rest m hK hF]
        exact ih (addAmount m c t.amount)
          (nodup_keys_addAmount c t.amount m h)
      | false =>
        rw [groupFold_cons_some_neg rest m hK hF]
        exact ih m h

def lookupQ : List (String × ℚ) → String → Option ℚ
  | [], _ => none
  | (k0, v) :: rest, k => if k0 = k then some v else lookupQ rest k

theorem lookupQ_of_mem :
    ∀ (m : List (String × ℚ)) (p : String × ℚ), (keysOf m).Nodup →
      p ∈ m → lookupQ m p.1 = some p.2 := by
  intro m
  induction m with
  | nil => intro p _ hp; simp at hp
  | cons q rest ih =>
    obtain ⟨k0, v⟩ := q
    intro p hnd hp
    simp only [keysOf, List.map_cons, List.nodup_cons] at hnd
    obtain ⟨hk0, hrest⟩ := hnd
    rcases List.mem_cons.mp hp with rfl | hp'
    · simp [lookupQ]
    · have hne : k0 ≠ p.1 := by
        intro hc
        exact hk0 (hc ▸ (List.mem_map.mpr ⟨p, hp', rfl⟩))
      rw [lookupQ, if_neg hne]
      exact ih p hrest hp'

theorem lookupQ_addAmount (k k' : String) (a : ℚ) :
    ∀ m : List (String × ℚ),
      lookupQ (addAmount m k a) k' =
        if k = k' then some ((lookupQ m k').getD 0 + a)
        else lookupQ m k' := by
  intro m
  induction m with
  | nil =>
    by_cases h : k = k' <;> simp [addAmount, lookupQ, h]
  | cons q rest ih =>
    obtain ⟨k0, v⟩ := q
    rw [addAmount]
    by_cases h0 : k0 = k
    · subst h0
      rw [if_pos rfl]
      by_cases h1 : k0 = k'
      · subst h1
        simp [lookupQ]
      · simp [lookupQ, h1]
    · rw [if_neg h0]
      by_cases h1 : k0 = k'
      · subst h1
        have : ¬ k = k0 := fun hc => h0 hc.symm
        simp [lookupQ, this]
      · simp only [lookupQ, if_neg h1]
        exact ih

/-- Value characterisation of the grouping fold: the bucket of key `k`
holds the sum of the amounts of the contributing transactions. -/
theorem groupFold_lookup (K : Transaction → Option String)
    (F : Transaction → Bool) (k : String) :
    ∀ (ts : List Transaction) (m : List (String × ℚ)),
      (lookupQ (groupFold K F ts m) k).getD 0 =
        (lookupQ m k).getD 0 +
          sumAmounts ts (fun t => F t && decide (K t = some k)) := by
  intro ts
  induction ts with
  | nil =>
    intro m
    simp [groupFold, sumAmounts]
  | cons t rest ih =>
    intro m
    rw [sumAmounts_cons]
    cases hK : K t with
    | none =>
      rw [groupFold_cons_none rest m hK, ih m]
      simp [hK]
    | some c =>
      cases hF : F t with
      | true =>
        rw [groupFold_cons_some_pos rest m hK hF,
          ih (addAmount m c t.amount), lookupQ_addAmount]
        by_cases hck : c = k
        · subst hck
          simp only [hK, hF, Bool.true_and, if_pos rfl]
          simp
          ring
        · have hnk : ¬ (some c = some k) := by simp [hck]
          simp only [hK, hF, Bool.true_and, if_neg hck]
          simp [hnk]
      | false =>
        rw [groupFold_cons_some_neg rest m hK hF, ih m]
        simp [hF]

/-- Key-origin for the grouping fold: every key of the result was already
present or comes from a contributing transaction. -/
theorem groupFold_key_origin (K : Transaction → Option String)
    (F : Transaction → Bool) :
    ∀ (ts : List Transaction) (m : List (String × ℚ)),
      ∀ p ∈ groupFold K F ts m,
        p.1 ∈ keysOf m ∨
          ∃ t ∈ ts, F t = true ∧ K t = some p.1 := by
  intro ts
  induction ts with
  | nil =>
    intro m p hp
    exact Or.inl (List.mem_map.mpr ⟨p, hp, rfl⟩)
  | cons t rest ih =>
    intro m p hp
    cases hK : K t with
    | none =>
      rw [groupFold_cons_none rest m hK] at hp
      rcases ih m p hp with h | ⟨u, hu, hFu, hKu⟩
      · exact Or.inl h
      · exact Or.inr ⟨u, List.mem_cons_of_mem t hu, hFu, hKu⟩
    | some c =>
      cases hF : F t with
      | true =>
        rw [groupFold_cons_some_pos rest m hK hF] at hp
        rcases ih (addAmount m c t.amount) p hp with h | ⟨u, hu, hFu, hKu⟩
        · rcases (keys_addAmount c p.1 t.amount m).mp h with h' | rfl
          · exact Or.inl h'
          · exact Or.inr ⟨t, List.mem_cons_self t rest, hF, hK⟩
        · exact Or.inr ⟨u, List.mem_cons_of_mem t hu, hFu, hKu⟩
      | false =>
        rw [groupFold_cons_some_neg rest m hK hF] at hp
        rcases ih m p hp with h | ⟨u, hu, hFu, hKu⟩
        · exact Or.inl h
        · exact Or.inr ⟨u, List.mem_cons_of_mem t hu, hFu, hKu⟩

/-- An expense categorised "Food" (capitalised). -/
def foodTxA : Transaction :=
  { id := "tx-fa"
    user_id := "user-1"
    amount := 10
    description := "Lunch"
    date := some ⟨2024, 4, 2⟩
    type := TxType.expense
    category := some "Food"
    notes := none
    is_credit := false
    installments := none
    original_amount := none
    remaining_installments := none }

/-- An expense categorised "food" (lower case). -/
def foodTxB : Transaction :=
  { id := "tx-fb"
    user_id := "user-1"
    amount := 5
    description := "Snack"
    date := some ⟨2024, 4, 3⟩
    type := TxType.expense
    category := some "food"
    notes := none
    is_credit := false
    installments := none
    original_amount := none
    remaining_installments := none }

/-- C9 (counterexample). The dashboard copy groups "Food" and "food"
together under the lower-cased key and reports the entry's name as
"food", not the title-cased "Food" the claim requires (title-casing is
only applied by CSS in the presentation layer); the reports-page copy
does not lower-case at all and keeps the two spellings as separate
entries. -/
theorem c9_counterexample :
    (calculateTopCategories_dashboard [foodTxA, foodTxB]
        TypeFilter.expense).map Prod.fst = ["food"] ∧
      ("food" : String) ≠ "Food" ∧
      sumAmounts [foodTxA, foodTxB]
        (fun t => typeMatches TypeFilter.expense t &&
          decide (catKey_dashboard t = some "food")) = 15 ∧
      calculateTopCategories_reports [foodTxA, foodTxB]
        TypeFilter.expense = [("Food", 10), ("food", 5)] := by
  refine ⟨by decide, by decide, ?_, by decide⟩
  have hfil : [foodTxA, foodTxB].filter
      (fun t => typeMatches TypeFilter.expense t &&
        decide (catKey_dashboard t = some "food")) = [foodTxA, foodTxB] := by
    decide
  rw [sumAmounts, hfil]
  norm_num [foodTxA, foodTxB]

/-- C9 (amended). For every transaction list and kind filter, the
dashboard top-categories output sums amount per lower-cased category,
contains only entries originating from transactions with a non-empty
category that pass the filter, has at most 5 entries, is sorted in
descending order of summed amount, and keeps tied entries in the order of
the grouped record (first-encountered order); each entry's name is the
lower-cased category itself — title-casing is applied only by the
presentation layer. (The reports-page copy differs in grouping by the raw
category string.) -/
theorem c9_top_categories (ts : List Transaction) (f : TypeFilter) :
    (calculateTopCategories_dashboard ts f).length ≤ 5 ∧
    List.Pairwise (fun a b => b.2 ≤ a.2)
      (calculateTopCategories_dashboard ts f) ∧
    (∀ p ∈ calculateTopCategories_dashboard ts f,
      (∃ t ∈ ts, typeMatches f t = true ∧ catKey_dashboard t = some p.1) ∧
      p.2 = sumAmounts ts
        (fun t => typeMatches f t &&
          decide (catKey_dashboard t = some p.1))) ∧
    (∀ a b : String × ℚ,
      [a, b].Sublist (calculateTopCategories_dashboard ts f) →
      a.2 = b.2 →
      [a, b].Sublist (groupFold catKey_dashboard (typeMatches f) ts [])) := by
  have hsorted := sortDescBy_pairwise (fun p : String × ℚ => p.2)
    (groupFold catKey_dashboard (typeMatches f) ts [])
  refine ⟨?_, ?_, ?_, ?_⟩
  · show ((sortDescBy (fun p => p.2)
      (groupFold catKey_dashboard (typeMatches f) ts [])).take 5).length ≤ 5
    rw [List.length_take]
    exact min_le_left _ _
  · exact List.Pairwise.sublist (List.take_sublist 5 _) hsorted
  · intro p hp
    have hp1 : p ∈ sortDescBy (fun p : String × ℚ => p.2)
        (groupFold catKey_dashboard (typeMatches f) ts []) :=
      List.mem_of_mem_take hp
    have hp2 : p ∈ groupFold catKey_dashboard (typeMatches f) ts [] :=
      (sortDescBy_mem _ p _).mp hp1
    constructor
    · rcases groupFold_key_origin catKey_dashboard (typeMatches f) ts []
        p hp2 with h | ⟨t, ht, hFt, hKt⟩
      · simp [keysOf] at h
      · exact ⟨t, ht, hFt, hKt⟩
    · have hnd : (keysOf (groupFold catKey_dashboard (typeMatches f)
          ts [])).Nodup :=
        nodup_keys_groupFold _ _ ts [] (by simp [keysOf])
      have hv := lookupQ_of_mem _ p hnd hp2
      have hsum := groupFold_lookup catKey_dashboard (typeMatches f)
        p.1 ts []
      rw [hv] at hsum
      simpa [lookupQ] using hsum
  · intro a b hsub heq
    have hsub' : [a, b].Sublist (sortDescBy (fun p : String × ℚ => p.2)
        (groupFold catKey_dashboard (typeMatches f) ts [])) :=
      List.Sublist.trans hsub (List.take_sublist 5 _)
    exact sortDescBy_stable (fun p : String × ℚ => p.2) _ a b hsub' heq

/-- C9 witness: the bound and sortedness at a concrete list. -/
theorem c9_witness :
    (calculateTopCategories_dashboard [foodTxA, foodTxB]
      TypeFilter.expense).length ≤ 5 ∧
    List.Pairwise (fun a b => b.2 ≤ a.2)
      (calculateTopCategories_dashboard [foodTxA, foodTxB]
        TypeFilter.expense) :=
  ⟨(c9_top_categories [foodTxA, foodTxB] TypeFilter.expense).1,
    (c9_top_categories [foodTxA, foodTxB] TypeFilter.expense).2.1⟩

/-- An expense dated in March. -/
def marTx : Transaction :=
  { id := "tx-mar"
    user_id := "user-1"
    amount := 20
    description := "March expense"
    date := some ⟨2024, 3, 5⟩
    type := TxType.expense
    category := some "misc"
    notes := none
    is_credit := false
    installments := none
    original_amount := none
    remaining_installments := none }

/-- An expense dated in October of the same year. -/
def octTx : Transaction :=
  { id := "tx-oct"
    user_id := "user-1"
    amount := 30
    description := "October expense"
    date := some ⟨2024, 10, 5⟩
    type := TxType.expense
    category := some "misc"
    notes := none
    is_credit := false
    installments := none
    original_amount := none
    remaining_installments := none }

/-- C8 (counterexample). The reports-page and the dashboard server page
build the month key without zero-padding (`"2024-3"`, not `"2024-03"`),
and for such keys lexicographic string order disagrees with chronological
order: the October key `"2024-10"` sorts before the March key
`"2024-3"`. -/
theorem c8_counterexample :
    (calculateMonthlyData_reports [marTx, octTx]).map Prod.fst =
      ["2024-3", "2024-10"] ∧
    (calculateFinancialStats_monthlyData [marTx, octTx]).map Prod.fst =
      ["2024-3", "2024-10"] ∧
    ("2024-10" < "2024-3") ∧
    (3 : Nat) < 10 ∧
    ¬ ("2024-3" = "2024-03") := by
  refine ⟨by decide, by decide, ?_, by decide, by decide⟩
  rw [String.lt_iff_toList_lt]
  decide

theorem keys_bumpMonth (k k' : String) (inc : Bool) (a : ℚ) :
    ∀ m : List (String × MonthTotals),
      (k' ∈ (bumpMonth m k inc a).map Prod.fst ↔
        k' ∈ m.map Prod.fst ∨ k' = k) := by
  intro m
  induction m with
  | nil => cases inc <;> simp [bumpMonth]
  | cons p rest ih =>
    obtain ⟨k0, v⟩ := p
    by_cases h0 : k0 = k
    · subst h0
      have he : bumpMonth ((k0, v) :: rest) k0 inc a =
          (k0, if inc then ⟨v.income + a, v.expense⟩
            else ⟨v.income, v.expense + a⟩) :: rest := by
        rw [bumpMonth, if_pos rfl]
      rw [he]
      simp only [List.map_cons, List.mem_cons]
      tauto
    · have he : bumpMonth ((k0, v) :: rest) k inc a =
          (k0, v) :: bumpMonth rest k inc a := by
        rw [bumpMonth, if_neg h0]
      rw [he]
      simp only [List.map_cons, List.mem_cons]
      rw [ih]
      tauto

/-- Every key of the dashboard monthly-data output is the padded month
key of some input transaction. -/
theorem dashboard_monthly_key_origin :
    ∀ (ts : List Transaction) (m : List (String × MonthTotals)),
      ∀ k ∈ (ts.foldl
        (fun m t =>
          bumpMonth m (monthKeyPadded t.date) (t.type = TxType.income)
            t.amount) m).map Prod.fst,
        k ∈ m.map Prod.fst ∨ ∃ t ∈ ts, k = monthKeyPadded t.date := by
  intro ts
  induction ts with
  | nil =>
    intro m k hk
    exact Or.inl hk
  | cons t rest ih =>
    intro m k hk
    rw [List.foldl_cons] at hk
    rcases ih _ k hk with h | ⟨u, hu, hku⟩
    · rcases (keys_bumpMonth (monthKeyPadded t.date) k
        (t.type = TxType.income) t.amount m).mp h with h' | rfl
      · exact Or.inl h'
      · exact Or.inr ⟨t, List.mem_cons_self t rest, rfl⟩
    · exact Or.inr ⟨u, List.mem_cons_of_mem t hu, hku⟩

theorem reprDigits_four (y : Nat) (h1 : 1000 ≤ y) (h2 : y ≤ 9999) :
    reprDigits y =
      [dchar (y % 10), dchar (y / 10 % 10), dchar (y / 100 % 10),
        dchar (y / 1000)] := by
  rw [reprDigits_unfold y, if_neg (by omega)]
  rw [reprDigits_unfold (y / 10), if_neg (by omega)]
  rw [reprDigits_unfold (y / 10 / 10), if_neg (by omega)]
  rw [reprDigits_unfold (y / 10 / 10 / 10), if_pos (by omega)]
  have e1 : y / 10 / 10 = y / 100 := by omega
  have e2 : y / 10 / 10 / 10 = y / 1000 := by omega
  rw [e1]
  rw [show y / 100 / 10 = y / 1000 by omega]

theorem pad2_data (m : Nat) (h1 : 1 ≤ m) (h2 : m ≤ 12) :
    (pad2 m).data = [dchar (m / 10), dchar (m % 10)] := by
  interval_cases m <;> decide

theorem natRepr_four_data (y : Nat) (h1 : 1000 ≤ y) (h2 : y ≤ 9999) :
    (natRepr y).data =
      [dchar (y / 1000), dchar (y / 100 % 10), dchar (y / 10 % 10),
        dchar (y % 10)] := by
  show (reprDigits y).reverse = _
  rw [reprDigits_four y h1 h2]
  rfl

theorem monthKeyPadded_data (d : SimpleDate) (hy1 : 1000 ≤ d.year)
    (hy2 : d.year ≤ 9999) (hm1 : 1 ≤ d.month) (hm2 : d.month ≤ 12) :
    (monthKeyPadded (some d)).data =
      ([d.year / 1000, d.year / 100 % 10, d.year / 10 % 10,
        d.year % 10] : List Nat).map dchar ++
      '-' ::
      ([d.month / 10, d.month % 10] : List Nat).map dchar := by
  show (natRepr d.year ++ "-" ++ pad2 d.month).data = _
  rw [String.data_append, String.data_append,
    natRepr_four_data d.year hy1 hy2, pad2_data d.month hm1 hm2]
  rfl

theorem dchar_lt_iff (x y : Nat) (hx : x < 10) (hy : y < 10) :
    (dchar x < dchar y ↔ x < y) := by
  interval_cases x <;> interval_cases y <;> decide

theorem dchar_eq_iff (x y : Nat) (hx : x < 10) (hy : y < 10) :
    (dchar x = dchar y ↔ x = y) := by
  interval_cases x <;> interval_cases y <;> decide

theorem lexCons {α : Type} [LinearOrder α] (a b : α) (l1 l2 : List α) :
    List.Lex (· < ·) (a :: l1) (b :: l2) ↔
      a < b ∨ (a = b ∧ List.Lex (· < ·) l1 l2) := by
  constructor
  · intro h
    cases h with
    | rel h => exact Or.inl h
    | cons h => exact Or.inr ⟨rfl, h⟩
  · rintro (h | ⟨rfl, h⟩)
    · exact List.Lex.rel h
    · exact List.Lex.cons h

theorem lexNilIff {α : Type} [LinearOrder α] :
    (List.Lex (· < ·) ([] : List α) [] ↔ False) := by
  constructor
  · intro h
    cases h
  · intro h
    exact absurd h (by intro hf; exact hf)

theorem lex_append_same_len {α : Type} [LinearOrder α] :
    ∀ (A A' t t' : List α), A.length = A'.length →
      (List.Lex (· < ·) (A ++ t) (A' ++ t') ↔
        (List.Lex (· < ·) A A' ∨ (A = A' ∧ List.Lex (· < ·) t t'))) := by
  intro A
  induction A with
  | nil =>
    intro A' t t' hlen
    have : A' = [] := by
      cases A' with
      | nil => rfl
      | cons a l => simp at hlen
    subst this
    simp only [List.nil_append]
    rw [lexNilIff]
    tauto
  | cons a A ih =>
    intro A' t t' hlen
    cases A' with
    | nil => simp at hlen
    | cons a' A'' =>
      simp only [List.cons_append]
      rw [lexCons, lexCons, ih A'' t t' (by simpa using hlen)]
      simp only [List.cons.injEq]
      tauto

theorem map_dchar_inj :
    ∀ xs ys : List Nat, (∀ x ∈ xs, x < 10) → (∀ y ∈ ys, y < 10) →
      (xs.map dchar = ys.map dchar ↔ xs = ys) := by
  intro xs
  induction xs with
  | nil =>
    intro ys _ _
    cases ys with
    | nil => simp
    | cons y l => simp
  | cons x xs ih =>
    intro ys hx hy
    cases ys with
    | nil => simp
    | cons y l =>
      simp only [List.map_cons, List.cons.injEq]
      rw [dchar_eq_iff x y (hx x (List.mem_cons_self x xs))
        (hy y (List.mem_cons_self y l)),
        ih l (fun u hu => hx u (List.mem_cons_of_mem x hu))
          (fun u hu => hy u (List.mem_cons_of_mem y hu))]

theorem lex_digits :
    ∀ xs ys : List Nat, (∀ x ∈ xs, x < 10) → (∀ y ∈ ys, y < 10) →
      (List.Lex (· < ·) (xs.map dchar) (ys.map dchar) ↔
        List.Lex (· < ·) xs ys) := by
  intro xs
  induction xs with
  | nil =>
    intro ys _ _
    cases ys with
    | nil =>
      simp only [List.map_nil]
      rw [lexNilIff, lexNilIff]
    | cons y l =>
      simp only [List.map_nil, List.map_cons]
      constructor
      · intro _; exact List.Lex.nil
      · intro _; exact List.Lex.nil
  | cons x xs ih =>
    intro ys hx hy
    cases ys with
    | nil =>
      simp only [List.map_cons, List.map_nil]
      constructor
      · intro h; cases h
      · intro h; cases h
    | cons y l =>
      simp only [List.map_cons]
      rw [lexCons, lexCons,
        dchar_lt_iff x y (hx x (List.mem_cons_self x xs))
          (hy y (List.mem_cons_self y l)),
        dchar_eq_iff x y (hx x (List.mem_cons_self x xs))
          (hy y (List.mem_cons_self y l)),
        ih l (fun u hu => hx u (List.mem_cons_of_mem x hu))
          (fun u hu => hy u (List.mem_cons_of_mem y hu))]

/-- Lexicographic comparison of two zero-padded month keys agrees with
chronological order, for four-digit years. -/
theorem monthKeyPadded_lt_iff (d1 d2 : SimpleDate)
    (hy1 : 1000 ≤ d1.year) (hy2 : d1.year ≤ 9999)
    (hm1 : 1 ≤ d1.month) (hm2 : d1.month ≤ 12)
    (hy1' : 1000 ≤ d2.year) (hy2' : d2.year ≤ 9999)
    (hm1' : 1 ≤ d2.month) (hm2' : d2.month ≤ 12) :
    (monthKeyPadded (some d1) < monthKeyPadded (some d2) ↔
      (d1.year < d2.year ∨
        (d1.year = d2.year ∧ d1.month < d2.month))) := by
  rw [String.lt_iff_toList_lt]
  show List.Lex (· < ·) (monthKeyPadded (some d1)).data
    (monthKeyPadded (some d2)).data ↔ _
  rw [monthKeyPadded_data d1 hy1 hy2 hm1 hm2,
    monthKeyPadded_data d2 hy1' hy2' hm1' hm2']
  rw [lex_append_same_len _ _ _ _ (by simp)]
  have hmonth : List.Lex (· < ·)
      ('-' :: ([d1.month / 10, d1.month % 10] : List Nat).map dchar)
      ('-' :: ([d2.month / 10, d2.month % 10] : List Nat).map dchar) ↔
      List.Lex (· < ·) ([d1.month / 10, d1.month % 10] : List Nat)
        [d2.month / 10, d2.month % 10] := by
    rw [lexCons, lex_digits _ _ (by intro x hx; simp at hx; omega)
      (by intro y hy; simp at hy; omega)]
    simp
  rw [hmonth]
  rw [lex_digits _ _ (by intro x hx; simp at hx; omega)
    (by intro y hy; simp at hy; omega)]
  rw [map_dchar_inj _ _ (by intro x hx; simp at hx; omega)
    (by intro y hy; simp at hy; omega)]
  simp only [lexCons, lexNilIff, lt_self_iff_false, false_or, and_false,
    or_false, List.cons.injEq, and_true, true_and, eq_self_iff_true]
  omega

/-- C8 (amended). Keys of the dashboard monthly-totals output are padded
month keys of input dates; for dates with four-digit years the padded key
is the digit string "YYYY-MM" with a zero-padded two-digit month, and
lexicographic comparison of two such keys agrees with chronological
order. The reports-page and server-page keys are built without padding
("2024-3" rather than "2024-03"), so the claim fails for them. -/
theorem c8_key_format :
    (∀ ts : List Transaction,
      ∀ k ∈ (calculateMonthlyData_dashboard ts).map Prod.fst,
        ∃ t ∈ ts, k = monthKeyPadded t.date) ∧
    (∀ d : SimpleDate, 1000 ≤ d.year → d.year ≤ 9999 → 1 ≤ d.month →
      d.month ≤ 12 →
      (monthKeyPadded (some d)).data =
        ([d.year / 1000, d.year / 100 % 10, d.year / 10 % 10,
          d.year % 10] : List Nat).map dchar ++
        '-' :: ([d.month / 10, d.month % 10] : List Nat).map dchar) ∧
    (∀ d1 d2 : SimpleDate, 1000 ≤ d1.year → d1.year ≤ 9999 →
      1 ≤ d1.month → d1.month ≤ 12 → 1000 ≤ d2.year → d2.year ≤ 9999 →
      1 ≤ d2.month → d2.month ≤ 12 →
      (monthKeyPadded (some d1) < monthKeyPadded (some d2) ↔
        (d1.year < d2.year ∨
          (d1.year = d2.year ∧ d1.month < d2.month)))) ∧
    monthKeyRaw (some ⟨2024, 3, 5⟩) = "2024-3" ∧
    monthKeyPadded (some ⟨2024, 3, 5⟩) = "2024-03" := by
  refine ⟨?_, monthKeyPadded_data, monthKeyPadded_lt_iff, by decide,
    by decide⟩
  intro ts k hk
  rcases dashboard_monthly_key_origin ts [] k hk with h | h
  · simp at h
  · exact h

/-- C8 witness: the padded March and October keys of the same year compare
chronologically. -/
theorem c8_witness :
    monthKeyPadded (some ⟨2024, 3, 5⟩) <
        monthKeyPadded (some ⟨2024, 10, 5⟩) ↔
      ((2024 : Nat) < 2024 ∨ ((2024 : Nat) = 2024 ∧ (3 : Nat) < 10)) :=
  c8_key_format.2.2.1 ⟨2024, 3, 5⟩ ⟨2024, 10, 5⟩ (by decide) (by decide)
    (by decide) (by decide) (by decide) (by decide) (by decide) (by decide)

/-- C7 witness at a concrete three-transaction list (an income, a plain
expense and a credit-purchase entry). -/
theorem c7_witness :
    netTotal (calculateMonthlyData_reports
        [sampleIncome, sampleExpense, creditTx100]) =
      sumAmounts [sampleIncome, sampleExpense, creditTx100]
          (fun t => t.type == TxType.income) -
        sumAmounts [sampleIncome, sampleExpense, creditTx100]
          (fun t => t.type == TxType.expense && !t.is_credit) :=
  c7_reconciliation [sampleIncome, sampleExpense, creditTx100] (by decide)
